import Mathlib

/-!
Verification of the manifest-resolution and content-classification pipeline
of the course-archive quality-check tool.

The embedding follows the two pipeline variants in the repository:

* `processAndAnalyze` and its helpers below model the variant in
  `src/unnamed/part_000` (the variant with the module-metadata fallback,
  explicit dependency resolution and the module/content merge).
* `mainClassifyResource` / `mainClassifyAll` model the per-resource
  classification loop of `src/js/main.js`.
* `findLinks` models the link extractor (identical in both variants).

XML/HTML parsing is an external collaborator: a parsed file is modelled as a
record (`Doc`, `ManifestDoc`, `ModuleMetaDoc`, ...) whose fields are exactly
the query results the code reads from it (`querySelector('title')`,
`getAttribute('content')`, ...).  JavaScript quirks that the code relies on
are modelled explicitly: `||` treats the empty string as falsy (`jsOr`),
`parseInt` can return NaN (`jsParseInt` returns `none`), `Map.set`
overwrites (`mapSet`), property access on `null` throws (`Except.error`).
-/

namespace CourseQC

/-- JavaScript truthiness for a nullable string: `null`/`undefined` and the
empty string are falsy; a non-empty string is kept. -/
def jsTruthy : Option String → Option String
  | some s => if s = "" then none else some s
  | none => none

/-- JavaScript `a || d` for a nullable string `a` and a string default `d`. -/
def jsOr (o : Option String) (d : String) : String := (jsTruthy o).getD d

/-- JavaScript `a || b` for nullable strings (used in `||`-chains). -/
def jsOrO (a b : Option String) : Option String :=
  match jsTruthy a with
  | some s => some s
  | none => b

/-- Check whether `pat` occurs as a contiguous sublist of `l`. -/
def infixCheck (pat : List Char) : List Char → Bool
  | [] => pat.isEmpty
  | c :: cs => List.isPrefixOf pat (c :: cs) || infixCheck pat cs

/-- JavaScript `s.includes(pat)`: substring containment. -/
def jsIncludes (s pat : String) : Bool := infixCheck pat.toList s.toList

/-- JavaScript `s.startsWith(pat)`. -/
def jsStartsWith (s pat : String) : Bool := List.isPrefixOf pat.toList s.toList

/-- JavaScript `s.endsWith(pat)`. -/
def jsEndsWith (s pat : String) : Bool := List.isSuffixOf pat.toList s.toList

/-- JavaScript `s.trim()`: strip leading and trailing whitespace. -/
def jsTrim (s : String) : String :=
  String.mk
    (((s.toList.dropWhile Char.isWhitespace).reverse.dropWhile
        Char.isWhitespace).reverse)

/-- JavaScript `parseInt(s, 10)`: skip leading whitespace, optional sign,
longest digit prefix; `none` models `NaN` (no digits found). -/
def jsParseInt (s : String) : Option Int :=
  let cs := s.toList.dropWhile Char.isWhitespace
  let p : Int × List Char :=
    match cs with
    | '-' :: r => (-1, r)
    | '+' :: r => (1, r)
    | _ => (1, cs)
  let digs := p.2.takeWhile Char.isDigit
  if digs.isEmpty then none
  else some (p.1 * digs.foldl (fun a c => a * 10 + Int.ofNat (c.toNat - 48)) 0)

/-- JavaScript `Map.prototype.set` on an insertion-ordered association list:
overwrite the entry for `k` when present, otherwise append it. -/
def mapSet {α : Type} (m : List (String × α)) (k : String) (v : α) :
    List (String × α) :=
  if (m.find? (fun p => p.1 == k)).isSome then
    m.map (fun p => if p.1 == k then (k, v) else p)
  else m ++ [(k, v)]

/-- JavaScript `Map.prototype.get` / object-key lookup (first match). -/
def mapGet {α : Type} (m : List (String × α)) (k : String) : Option α :=
  (m.find? (fun p => p.1 == k)).map (fun p => p.2)

/-- An `<a>` element as read by the link extractor: the `href` attribute
(the `a[href]` selector guarantees presence), the trimmed-to-be text
content, and the class list. -/
structure Anchor where
  href : String
  text : String
  classes : List String
deriving DecidableEq, Repr

/-- A parsed XML/HTML file, modelled by the query results the pipeline reads
from it.  `title` is `querySelector('title')?.textContent`, `workflowState`
is `querySelector('workflow_state')?.textContent`, `metaWorkflowContent` is
`querySelector('meta[name="workflow_state"]')?.getAttribute('content')`,
`available`, `quizType` and `typeText` are the text of the corresponding
elements, `anchors` are the `a[href]` elements of an HTML body. -/
structure Doc where
  title : Option String := none
  workflowState : Option String := none
  metaWorkflowContent : Option String := none
  available : Option String := none
  quizType : Option String := none
  typeText : Option String := none
  anchors : List Anchor := []
deriving DecidableEq, Repr

/-- A `<dependency>` child of a manifest resource.  XML attribute lookup is
case sensitive, and the two variants read the attribute under two casings
(`identifierref` in `part_000`, `identifierRef` in `main.js`), so both are
modelled as separate fields. -/
structure DependencyEl where
  identifierref : Option String := none
  identifierRefCamel : Option String := none
deriving DecidableEq, Repr

/-- A `<resource>` element of `imsmanifest.xml`.  `identifierRefAttr` is the
resource element's own `identifierRef` attribute, which the `main.js` helper
`findManifestResourceElementByIentifier` matches against. -/
structure ResourceEl where
  identifier : Option String := none
  type : Option String := none
  href : Option String := none
  deps : List DependencyEl := []
  identifierRefAttr : Option String := none
deriving DecidableEq, Repr

/-- An `<item>` element of the manifest `<organizations>` tree, with its
attributes, its own `<title>` child text, and its nested items. -/
inductive OrgItem where
  | node (identifier : Option String) (identifierref : Option String)
      (title : Option String) (children : List OrgItem)

/-- Attribute accessor. -/
def OrgItem.identifier : OrgItem → Option String
  | .node i _ _ _ => i

/-- Attribute accessor. -/
def OrgItem.identifierref : OrgItem → Option String
  | .node _ r _ _ => r

/-- Title-child accessor. -/
def OrgItem.title : OrgItem → Option String
  | .node _ _ t _ => t

/-- Children accessor. -/
def OrgItem.children : OrgItem → List OrgItem
  | .node _ _ _ c => c

mutual
/-- The result of `querySelector('title')` evaluated at an organization
item: the first `<title>` text in the element's subtree, in document order
(the element's own title child precedes the titles of nested items). -/
def firstTitleWithin : OrgItem → Option String
  | .node _ _ t ch =>
    match t with
    | some s => some s
    | none => firstTitleList ch

/-- First `<title>` text over a list of sibling items. -/
def firstTitleList : List OrgItem → Option String
  | [] => none
  | c :: cs =>
    match firstTitleWithin c with
    | some s => some s
    | none => firstTitleList cs
end

/-- An organization item together with the query results the pipeline reads
from it after finding it: its attributes, `querySelector('title')`, and
`parentElement.querySelector('title')`. -/
structure OrgNode where
  identifier : Option String
  identifierref : Option String
  titleQ : Option String
  parentTitleQ : Option String
deriving DecidableEq, Repr

mutual
/-- Flatten an organization item into `OrgNode` records in document order;
`pq` is the `parentElement.querySelector('title')` result for this item.
The children of a node see the node's own subtree-first title as their
parent title query. -/
def orgNodes (pq : Option String) : OrgItem → List OrgNode
  | .node i r t ch =>
    { identifier := i, identifierref := r,
      titleQ := firstTitleWithin (.node i r t ch), parentTitleQ := pq } ::
      orgNodesList (firstTitleWithin (.node i r t ch)) ch

/-- Flatten a list of sibling items. -/
def orgNodesList (pq : Option String) : List OrgItem → List OrgNode
  | [] => []
  | c :: cs => orgNodes pq c ++ orgNodesList pq cs
end

mutual
/-- Every item in the subtree has a `<title>` child. -/
def orgAllTitles : OrgItem → Bool
  | .node _ _ t ch => t.isSome && orgAllTitlesList ch

/-- Every item in a list of subtrees has a `<title>` child. -/
def orgAllTitlesList : List OrgItem → Bool
  | [] => true
  | c :: cs => orgAllTitles c && orgAllTitlesList cs
end

/-- An `<item>` element of `course_settings/module_meta.xml`, with its
identifier attribute and the text of its `<title>`, `<indent>`,
`<workflow_state>` and `<content_type>` children. -/
structure MetaItemEl where
  identifier : Option String := none
  title : Option String := none
  indentText : Option String := none
  workflowState : Option String := none
  contentType : Option String := none
deriving DecidableEq, Repr

/-- A `<module>` element of `course_settings/module_meta.xml`. -/
structure ModuleEl where
  identifier : Option String := none
  title : Option String := none
  workflowState : Option String := none
  items : List MetaItemEl := []
deriving DecidableEq, Repr

/-- Parsed `course_settings/module_meta.xml`. -/
structure ModuleMetaDoc where
  modules : List ModuleEl := []
deriving Repr

/-- Parsed `imsmanifest.xml`: the `<resource>` elements and the first
`<organizations> <item>` (the value of
`manifest.querySelector("organizations item")`). -/
structure ManifestDoc where
  resources : List ResourceEl := []
  orgRoot : Option OrgItem := none

/-- The decoded archive: `manifest` and `moduleMeta` are the parsed contents
of the `imsmanifest.xml` and `course_settings/module_meta.xml` entries
(`none` when the entry is absent from the name-to-content mapping), and
`files` is the same mapping as read by the path lookups of the classifier
(page bodies, settings files, companion hrefs, discussion XML bodies). -/
structure Archive where
  manifest : Option ManifestDoc := none
  moduleMeta : Option ModuleMetaDoc := none
  files : List (String × Doc) := []

/-- `querySelector('title')` at a module element: the module's own title
child, else the first title among its items (CSS descendant search in
document order). -/
def moduleTitleQ (m : ModuleEl) : Option String :=
  match m.title with
  | some s => some s
  | none => (m.items.filterMap (fun i => i.title)).head?

/-- `querySelector('workflow_state')` at a module element. -/
def moduleWorkflowQ (m : ModuleEl) : Option String :=
  match m.workflowState with
  | some s => some s
  | none => (m.items.filterMap (fun i => i.workflowState)).head?

/-- `querySelector('indent')` at a module element: modules carry no indent
child of their own, so the CSS descendant search yields the first indent
text among the module's items. -/
def moduleIndentQ (m : ModuleEl) : Option String :=
  (m.items.filterMap (fun i => i.indentText)).head?

/-- `querySelector('content_type')` at a module element. -/
def moduleContentTypeQ (m : ModuleEl) : Option String :=
  (m.items.filterMap (fun i => i.contentType)).head?

/-- The `workflow_state === 'active'` publish-status ternary used throughout
both variants. -/
def statusOfWS (ws : Option String) : String :=
  if ws = some "active" then "active" else "unpublished"

/-- An `itemMetaMap` value: publish status, indent (`none` models NaN) and
content type gathered from a `module` or `item` element of
`course_settings/module_meta.xml`. -/
structure MetaEntry where
  status : String
  indent : Option Int
  contentType : String
deriving DecidableEq, Repr

/-- The `itemMetaMap` default used by the resource loop when no metadata
entry exists (`{ status: 'unpublished', indent: 0 }`). -/
def metaDefault : MetaEntry :=
  { status := "unpublished", indent := some 0, contentType := "N/A" }

/-- Metadata gathered from a `<module>` element for `itemMetaMap`. -/
def metaEntryOfModule (m : ModuleEl) : MetaEntry :=
  { status := statusOfWS (moduleWorkflowQ m),
    indent := jsParseInt (jsOr (moduleIndentQ m) "0"),
    contentType := jsOr (moduleContentTypeQ m) "N/A" }

/-- Metadata gathered from an `<item>` element for `itemMetaMap`. -/
def metaEntryOfItem (i : MetaItemEl) : MetaEntry :=
  { status := statusOfWS i.workflowState,
    indent := jsParseInt (jsOr i.indentText "0"),
    contentType := jsOr i.contentType "N/A" }

/-- Build `itemMetaMap` from `querySelectorAll("module, item")` in document
order: each module followed by its items; elements without a (truthy)
identifier are skipped. -/
def buildItemMetaMap (mm : ModuleMetaDoc) : List (String × MetaEntry) :=
  mm.modules.foldl (fun acc m =>
    let acc1 := match jsTruthy m.identifier with
      | some k => mapSet acc k (metaEntryOfModule m)
      | none => acc
    m.items.foldl (fun a i =>
      match jsTruthy i.identifier with
      | some k => mapSet a k (metaEntryOfItem i)
      | none => a) acc1) []

/-- A `resourceMap` value: type, href and the `identifierref` attributes of
the resource's `<dependency>` children, in document order. -/
structure RMapEntry where
  type : Option String
  href : Option String
  deps : List (Option String)
deriving DecidableEq, Repr

/-- Build `resourceMap` from the manifest `<resource>` elements; resources
without a truthy identifier are skipped. -/
def buildResourceMap (rs : List ResourceEl) : List (String × RMapEntry) :=
  rs.foldl (fun acc r =>
    match jsTruthy r.identifier with
    | some k =>
      mapSet acc k
        { type := r.type, href := r.href,
          deps := r.deps.map (fun d => d.identifierref) }
    | none => acc) []

/-- The assignment classification predicate: the type URN contains the
learning-application-resource marker, the href is truthy, ends in `html`
and does not start with `course_settings/`. -/
def isAssignF (t : String) (href : Option String) : Bool :=
  jsIncludes t "associatedcontent/imscc_xmlv1p1/learning-application-resource" &&
    (match jsTruthy href with
     | some h => jsEndsWith h "html" && !(jsStartsWith h "course_settings/")
     | none => false)

/-- The quiz-or-survey classification predicate (QTI assessment marker). -/
def isQuizF (t : String) : Bool :=
  jsIncludes t "imsqti_xmlv1p2/imscc_xmlv1p1/assessment"

/-- The discussion classification predicate. -/
def isDiscF (t : String) : Bool := jsIncludes t "imsdt_xmlv1p1"

/-- The page classification predicate: type is exactly `webcontent` and the
href starts with the wiki-storage prefix. -/
def isPageF (t : String) (href : Option String) : Bool :=
  t == "webcontent" &&
    (match jsTruthy href with
     | some h => jsStartsWith h "wiki_content/"
     | none => false)

/-- The file classification predicate: type is exactly `webcontent` and the
href starts with the file-storage prefix. -/
def isFileF (t : String) (href : Option String) : Bool :=
  t == "webcontent" &&
    (match jsTruthy href with
     | some h => jsStartsWith h "web_resources/"
     | none => false)

/-- The web-link classification predicate. -/
def isLinkF (t : String) : Bool := jsIncludes t "imswl_xmlv1p1"

/-- The push condition of the resource loop: the classified record is
recorded in `allCourseContent` exactly when one of the assignment, quiz,
discussion or page flags holds. -/
def pushCondT (t : String) (href : Option String) : Bool :=
  isAssignF t href || isQuizF t || isDiscF t || isPageF t href

/-- A record of the `allCourseContent` list (`itemData` in the source). -/
structure ItemData where
  title : String
  type : Option String
  clarifiedType : String
  href : Option String
  status : String
  indent : Option Int
  inModule : Bool
  moduleTitle : Option String
  contentType : Option String
  identifier : Option String
  identifierref : Option String
deriving DecidableEq, Repr

/-- A record of `contentItemsForAnalysis`: the spread copy of the item data
with the href replaced by the analysis href, plus the analysis type. -/
structure ContentItem where
  item : ItemData
  analysisType : String
deriving DecidableEq, Repr

/-- A module item of `courseStructure`. -/
structure ModuleItem where
  title : String
  identifier : Option String
  identifierref : Option String
  status : String
  indent : Option Int
  clarifiedType : String
  contentType : String
deriving DecidableEq, Repr

/-- A module of `courseStructure`. -/
structure Module where
  title : String
  items : List ModuleItem
  status : String
deriving DecidableEq, Repr

/-- The page branch of the resource loop: open the HTML at the href, take
title and workflow-state meta when the body is present; the analysis href is
set whether or not the body is present. -/
def pageBranch (files : List (String × Doc)) (d : ItemData) (h : String) :
    ItemData × Option String :=
  match mapGet files h with
  | some doc =>
    ({ d with
        clarifiedType := "page",
        title := jsOr doc.title d.title,
        status := if doc.metaWorkflowContent = some "active"
          then "active" else "unpublished" }, some h)
  | none => ({ d with clarifiedType := "page" }, some h)

/-- The assignment branch: find a `{id}/...assignment_settings.xml` key for
title and status, and independently a `{id}/....html` key as analysis
target. -/
def assignmentBranch (files : List (String × Doc)) (idRef : String)
    (d : ItemData) : ItemData × Option String :=
  let settings := files.find? (fun p =>
    jsStartsWith p.1 (idRef ++ "/") && jsEndsWith p.1 "assignment_settings.xml")
  let d1 := match settings with
    | some ps =>
      { d with
        clarifiedType := "assignment",
        title := jsOr ps.2.title d.title,
        status := statusOfWS ps.2.workflowState }
    | none => { d with clarifiedType := "assignment" }
  let htmlFile := files.find? (fun p =>
    jsStartsWith p.1 (idRef ++ "/") && jsEndsWith p.1 ".html")
  (d1, htmlFile.map (fun p => p.1))

/-- Resolve a quiz resource's first dependency to a companion resource whose
href is present in the file mapping. -/
def quizResolve (rMap : List (String × RMapEntry)) (files : List (String × Doc))
    (rm : RMapEntry) : Option (String × Doc) :=
  match rm.deps.head? with
  | some (some k) =>
    (match mapGet rMap k with
     | some mr =>
       (match mr.href with
        | some h =>
          (match mapGet files h with
           | some doc => some (h, doc)
           | none => none)
        | none => none)
     | none => none)
  | _ => none

/-- The quiz-or-survey branch: when the dependency resolves, the companion
XML becomes the analysis target and supplies title, status and the
survey-vs-quiz decision; otherwise nothing is changed. -/
def quizBranch (rMap : List (String × RMapEntry)) (files : List (String × Doc))
    (rm : RMapEntry) (d : ItemData) : ItemData × Option String × String :=
  match quizResolve rMap files rm with
  | some hd =>
    ({ d with
        title := jsOr hd.2.title d.title,
        status := if hd.2.available = some "true" then "active" else "unpublished",
        clarifiedType := if hd.2.quizType = some "survey" then "survey" else "quiz" },
      some hd.1, "xml")
  | none => (d, none, "html")

/-- The discussion branch: the `{id}.xml` body (when present) becomes the
analysis target and supplies the title; the first dependency's `{dep}.xml`
settings file (when present) supplies the status and may override the
clarified type to announcement. -/
def discussionBranch (files : List (String × Doc)) (rm : RMapEntry)
    (idRef : String) (d : ItemData) : ItemData × Option String × String :=
  let d0 := { d with clarifiedType := "discussion" }
  match mapGet files (idRef ++ ".xml") with
  | none => (d0, none, "html")
  | some bodyDoc =>
    let d1 := { d0 with title := jsOr bodyDoc.title d0.title }
    let depId := match rm.deps.head? with
      | some o => o
      | none => none
    match jsTruthy depId with
    | some k =>
      (match mapGet files (k ++ ".xml") with
       | some sd =>
         ({ d1 with
             status := statusOfWS sd.workflowState,
             clarifiedType := if sd.typeText = some "announcement"
               then "announcement" else d1.clarifiedType },
           some (idRef ++ ".xml"), "discussion_xml")
       | none => (d1, some (idRef ++ ".xml"), "discussion_xml"))
    | none => (d1, some (idRef ++ ".xml"), "discussion_xml")

/-- The result of one iteration of the resource loop: the item data, the
`contentItemsForAnalysis` record when one is pushed, and whether the item is
pushed onto `allCourseContent`. -/
structure StepOut where
  item : ItemData
  analysis : Option ContentItem
  pushed : Bool
deriving DecidableEq, Repr

/-- One iteration of the resource loop of `processAndAnalyze` over a
`resourceMap` entry.  Errors model the uncaught JavaScript TypeErrors: the
`parentModuleEl.querySelector('title').textContent` access when the parent
has no title, and `itemData.type.includes(...)` when the resource has no
type attribute. -/
def classifyResource (files : List (String × Doc))
    (imm : List (String × MetaEntry)) (ids : List String)
    (rnodes : List (String × OrgNode)) (rMap : List (String × RMapEntry))
    (idRef : String) (rm : RMapEntry) : Except String StepOut :=
  let manifestItem := mapGet rnodes idRef
  let title0 := manifestItem.bind (fun n => n.titleQ)
  let itemIdentifier := jsTruthy (manifestItem.bind (fun n => n.identifier))
  let itemMeta := itemIdentifier.bind (mapGet imm)
  let status0 := match itemMeta with
    | some e => e.status
    | none => "unpublished"
  let indent0 := match itemMeta with
    | some e => e.indent
    | none => some 0
  let contentType0 := match itemMeta with
    | some e => some e.contentType
    | none => none
  let inModule := match itemIdentifier with
    | some k => ids.contains k
    | none => false
  let moduleTitleE : Except String (Option String) :=
    match inModule, manifestItem with
    | true, some n =>
      (match n.parentTitleQ with
       | some s => Except.ok (some s)
       | none => Except.error "TypeError: cannot read textContent of null")
    | true, none => Except.ok (none : Option String)
    | false, _ => Except.ok (none : Option String)
  match moduleTitleE with
  | Except.error e => Except.error e
  | Except.ok moduleTitle =>
    match rm.type with
    | none => Except.error "TypeError: cannot read includes of null"
    | some t =>
      let d0 : ItemData := {
        title := jsOr title0 idRef, type := rm.type,
        clarifiedType := "unspecified", href := rm.href, status := status0,
        indent := indent0, inModule := inModule, moduleTitle := moduleTitle,
        contentType := contentType0, identifier := none, identifierref := none }
      let isHeader := contentType0 == some "ContextModuleSubHeader"
      let res : ItemData × Option String × String :=
        if isLinkF t then ({ d0 with clarifiedType := "link" }, none, "html")
        else if isHeader then ({ d0 with clarifiedType := "header" }, none, "html")
        else if isFileF t rm.href then
          ({ d0 with clarifiedType := "file" }, none, "html")
        else if isPageF t rm.href then
          (match rm.href with
           | some h =>
             (let p := pageBranch files d0 h
              (p.1, p.2, "html"))
           | none => (d0, none, "html"))
        else if isAssignF t rm.href then
          (let p := assignmentBranch files idRef d0
           (p.1, p.2, "html"))
        else if isQuizF t then quizBranch rMap files rm d0
        else if isDiscF t then discussionBranch files rm idRef d0
        else (d0, none, "html")
      let pushed := pushCondT t rm.href
      let analysis := if pushed then
          (match jsTruthy res.2.1 with
           | some h =>
             some { item := { res.1 with href := some h }, analysisType := res.2.2 }
           | none => none)
        else none
      Except.ok { item := res.1, analysis := analysis, pushed := pushed }

/-- Run the resource loop over the `resourceMap` entries in insertion order,
collecting the pushed `allCourseContent` and `contentItemsForAnalysis`
records. -/
def classifyAll (files : List (String × Doc)) (imm : List (String × MetaEntry))
    (ids : List String) (rnodes : List (String × OrgNode))
    (rMap : List (String × RMapEntry)) :
    List (String × RMapEntry) → Except String (List ItemData × List ContentItem)
  | [] => Except.ok ([], [])
  | e :: rest =>
    match classifyResource files imm ids rnodes rMap e.1 e.2 with
    | Except.error msg => Except.error msg
    | Except.ok s =>
      match classifyAll files imm ids rnodes rMap rest with
      | Except.error msg => Except.error msg
      | Except.ok r =>
        Except.ok ((if s.pushed then [s.item] else []) ++ r.1,
          (match s.analysis with
           | some c => [c]
           | none => []) ++ r.2)

/-- The accumulators filled by the module-structure pass: the modules pushed
onto `courseStructure`, the `inModuleItemIdentifiers` set, and
`resourceToManifestItemMap`. -/
structure BuildAcc where
  modules : List Module
  ids : List String
  rmap : List (String × OrgNode)
deriving Repr

/-- The stored element for `resourceToManifestItemMap` when no manifest item
matched and the module-metadata `<item>` element itself is stored: its
parent element is the enclosing `<module>`. -/
def storedOfMetaItem (modEl : ModuleEl) (i : MetaItemEl) : OrgNode :=
  { identifier := i.identifier, identifierref := none, titleQ := i.title,
    parentTitleQ := moduleTitleQ modEl }

/-- One module-metadata `<item>` step of the module loop: compute the module
item, extend the identifier set and `resourceToManifestItemMap`. -/
def metaItemStep (allNodes : List OrgNode) (imm : List (String × MetaEntry))
    (modEl : ModuleEl)
    (a : List ModuleItem × List String × List (String × OrgNode))
    (mItem : MetaItemEl) :
    List ModuleItem × List String × List (String × OrgNode) :=
  let itemId := mItem.identifier
  let metaFromMap := (itemId.bind (mapGet imm)).getD
    { status := "unpublished", indent := some 0, contentType := "N/A" }
  let indentFromMetaXml := jsParseInt (mItem.indentText.getD "")
  let indent : Option Int := match indentFromMetaXml with
    | some n => some n
    | none => some (metaFromMap.indent.getD 0)
  let status := jsOr (some metaFromMap.status) "unpublished"
  let manifestItem : Option OrgNode := match jsTruthy itemId with
    | some k => allNodes.find? (fun n => n.identifier == some k)
    | none => none
  let identifierRef := jsTruthy (manifestItem.bind (fun n => n.identifierref))
  let titleFromManifest := manifestItem.bind (fun n => n.titleQ)
  let title := jsOr (jsOrO titleFromManifest
    (jsOrO mItem.title (jsOrO itemId identifierRef))) "Untitled"
  let mi : ModuleItem := {
    title := title, identifier := itemId,
    identifierref := identifierRef, status := status, indent := indent,
    clarifiedType := "unspecified", contentType := metaFromMap.contentType }
  let ids2 := match jsTruthy itemId with
    | some k => a.2.1 ++ [k]
    | none => a.2.1
  let rmap2 := match identifierRef with
    | some k =>
      mapSet a.2.2 k
        (match manifestItem with
         | some n => n
         | none => storedOfMetaItem modEl mItem)
    | none => a.2.2
  (a.1 ++ [mi], ids2, rmap2)

/-- Build modules from `course_settings/module_meta.xml` when it is present
(the authoritative structure path). -/
def buildFromModuleMeta (org : OrgItem) (mm : ModuleMetaDoc)
    (imm : List (String × MetaEntry)) : BuildAcc :=
  let allNodes := orgNodes (firstTitleWithin org) org
  mm.modules.foldl (fun acc modEl =>
    let moduleTitle := jsOr (moduleTitleQ modEl) "Untitled Module"
    let moduleStatus := statusOfWS (moduleWorkflowQ modEl)
    let r := modEl.items.foldl (metaItemStep allNodes imm modEl)
      ([], acc.ids, acc.rmap)
    { modules := acc.modules ++
        [{ title := moduleTitle, items := r.1, status := moduleStatus }],
      ids := r.2.1, rmap := r.2.2 })
    { modules := [], ids := [], rmap := [] }

/-- The module item built from one descendant item on the fallback path:
title from the subtree's first title, else the identifier attributes, else
a default; status, indent and content type from `itemMetaMap` with the
documented defaults. -/
def fallbackMI (imm : List (String × MetaEntry)) (node : OrgNode) : ModuleItem :=
  let childId := node.identifier
  let childIdRef := node.identifierref
  let childMeta := childId.bind (mapGet imm)
  let status := match childMeta with
    | some e => e.status
    | none => "unpublished"
  let indent := match childMeta with
    | some e => e.indent
    | none => some 0
  let contentType := match childMeta with
    | some e => jsOr (some e.contentType) "N/A"
    | none => "N/A"
  let childTitle := jsOr (jsOrO node.titleQ (jsOrO childIdRef childId)) "Untitled"
  { title := childTitle, identifier := childId,
    identifierref := childIdRef, status := status, indent := indent,
    clarifiedType := "unspecified", contentType := contentType }

/-- One descendant-item step of the fallback module loop. -/
def fallbackItemStep (imm : List (String × MetaEntry))
    (a : List ModuleItem × List String × List (String × OrgNode))
    (node : OrgNode) :
    List ModuleItem × List String × List (String × OrgNode) :=
  let ids2 := match jsTruthy node.identifier with
    | some k => a.2.1 ++ [k]
    | none => a.2.1
  let rmap2 := match jsTruthy node.identifierref with
    | some k => mapSet a.2.2 k node
    | none => a.2.2
  (a.1 ++ [fallbackMI imm node], ids2, rmap2)

/-- Build modules from the manifest `<organizations> <item>` tree when
`course_settings/module_meta.xml` is absent: each child item of the root
becomes a module (title from its subtree's first `<title>`, default status
unpublished), its descendant items become the module items. -/
def buildFallback (org : OrgItem) (imm : List (String × MetaEntry)) : BuildAcc :=
  org.children.foldl (fun acc child0 =>
    let moduleTitle := jsOr (firstTitleWithin child0) "Untitled Module"
    let moduleStatus := match child0.identifier.bind (mapGet imm) with
      | some e => e.status
      | none => "unpublished"
    let descNodes := orgNodesList (firstTitleWithin child0) child0.children
    let r := descNodes.foldl (fallbackItemStep imm) ([], acc.ids, acc.rmap)
    { modules := acc.modules ++
        [{ title := moduleTitle, items := r.1, status := moduleStatus }],
      ids := r.2.1, rmap := r.2.2 })
    { modules := [], ids := [], rmap := [] }

/-- The module-structure pass: nothing is built when the manifest has no
`<organizations> <item>`; otherwise the module-metadata path or the fallback
path runs depending on whether `course_settings/module_meta.xml` is
present. -/
def buildStructure (m : ManifestDoc) (mmO : Option ModuleMetaDoc)
    (imm : List (String × MetaEntry)) : BuildAcc :=
  match m.orgRoot with
  | none => { modules := [], ids := [], rmap := [] }
  | some org =>
    match mmO with
    | some mm => buildFromModuleMeta org mm imm
    | none => buildFallback org imm

/-- The merge update applied to the first content item whose title equals
the module item's title. -/
def mergedItem (d : ItemData) (mt : String) (it : ModuleItem) : ItemData :=
  { d with
    inModule := true, moduleTitle := some mt, indent := it.indent,
    identifier := (match jsTruthy it.identifier with
      | some s => some s
      | none => d.identifier),
    identifierref := (match jsTruthy it.identifierref with
      | some s => some s
      | none => d.identifierref),
    contentType := some it.contentType }

/-- Merge one module item into the content list: update the first item with
exactly equal title; leave the list unchanged when no title matches. -/
def mergeItemInto : List ItemData → String → ModuleItem → List ItemData
  | [], _, _ => []
  | d :: ds, mt, it =>
    if d.title == it.title then mergedItem d mt it :: ds
    else d :: mergeItemInto ds mt it

/-- Merge all items of one module into the content list, in order. -/
def mergeModule (c : List ItemData) (m : Module) : List ItemData :=
  m.items.foldl (fun acc it => mergeItemInto acc m.title it) c

/-- Merge every module of the course structure into the content list. -/
def mergeAll (c : List ItemData) (ms : List Module) : List ItemData :=
  ms.foldl mergeModule c

/-- The accumulating globals `courseStructure` and `allCourseContent`; they
are only ever appended to (and merge-updated) by `processAndAnalyze` and
never reset between runs. -/
structure PState where
  courseStructure : List Module
  allCourseContent : List ItemData
deriving DecidableEq, Repr

/-- The globals at page load: both lists empty. -/
def initState : PState := { courseStructure := [], allCourseContent := [] }

/-- The data-producing part of `processAndAnalyze` in `src/unnamed/part_000`:
manifest check, metadata map, resource map, module structure (with the
module-metadata fallback), the resource-classification loop and the
module/content merge.  `st` is the state of the global accumulator arrays
before the call; the returned state is the state after it, together with
`contentItemsForAnalysis`. -/
def processAndAnalyze (st : PState) (a : Archive) :
    Except String (PState × List ContentItem) :=
  match a.manifest with
  | none => Except.error "imsmanifest.xml not found in the archive."
  | some m =>
    let imm := match a.moduleMeta with
      | some mm => buildItemMetaMap mm
      | none => []
    let rMapL := buildResourceMap m.resources
    let acc := buildStructure m a.moduleMeta imm
    let cs := st.courseStructure ++ acc.modules
    match classifyAll a.files imm acc.ids acc.rmap rMapL rMapL with
    | Except.error msg => Except.error msg
    | Except.ok r =>
      let contentAll := st.allCourseContent ++ r.1
      Except.ok
        ({ courseStructure := cs, allCourseContent := mergeAll contentAll cs },
         r.2)

/-- A record of the `allResources` list in `src/js/main.js` (the fields
pushed at the end of its resource loop). -/
structure MainRec where
  identifier : Option String
  title : String
  identifierref : Option String
  status : String
  clarifiedType : String
  contentType : Option String
  analysisHref : Option String
  analysisType : String
deriving DecidableEq, Repr

/-- The `main.js` helper `findManifestResourceElementByIentifier`: find a
`<resource>` element whose `identifierRef` attribute equals the given
identifier (null/empty identifiers match nothing). -/
def findResourceByRefAttr (rs : List ResourceEl) (idO : Option String) :
    Option ResourceEl :=
  match jsTruthy idO with
  | some k => rs.find? (fun r => r.identifierRefAttr == some k)
  | none => none

/-- One iteration of the `main.js` resource loop.  The initial record uses
the defaults `status = 'unknown'`, `title = 'untitled'`,
`clarifiedType = 'tbd'`; `identifierref` stays null because the inner
`const` declarations shadow the outer variable.  A resource without a type
attribute throws (the first flag computation calls `includes` on null). -/
def mainClassifyResource (rs : List ResourceEl) (files : List (String × Doc))
    (r : ResourceEl) : Except String MainRec :=
  match r.type with
  | none => Except.error "TypeError: cannot read includes of null"
  | some t =>
  let d0 : MainRec := {
    identifier := r.identifier, title := "untitled", identifierref := none,
    status := "unknown", clarifiedType := "tbd", contentType := some t,
    analysisHref := none, analysisType := "html" }
  let res : MainRec :=
    if isLinkF t then { d0 with clarifiedType := "link" }
    else if isFileF t r.href then { d0 with clarifiedType := "file" }
    else if isPageF t r.href then
      (match r.href with
       | some h =>
         (match mapGet files h with
          | some doc =>
            { d0 with
              clarifiedType := "page",
              title := jsOr doc.title d0.title,
              status := if doc.metaWorkflowContent = some "active"
                then "active" else "unpublished",
              analysisHref := some h }
          | none => { d0 with clarifiedType := "page", analysisHref := some h })
       | none => d0)
    else if isAssignF t r.href then
      (let settings := files.find? (fun p =>
         jsStartsWith p.1 ((r.identifier.getD "null") ++ "/") &&
           jsEndsWith p.1 "assignment_settings.xml")
       let d1 := match settings with
         | some ps =>
           { d0 with
             clarifiedType := "assignment",
             status := statusOfWS ps.2.workflowState,
             title := jsOr ps.2.title d0.title }
         | none => { d0 with clarifiedType := "assignment" }
       let htmlFile := files.find? (fun p =>
         jsStartsWith p.1 ((r.identifier.getD "null") ++ "/") &&
           jsEndsWith p.1 ".html")
       match htmlFile with
       | some p => { d1 with analysisHref := some p.1 }
       | none => d1)
    else if isQuizF t then
      (let dep := (r.deps.head?).bind (fun d => d.identifierRefCamel)
       match findResourceByRefAttr rs dep with
       | some mr =>
         (match mr.href with
          | some h =>
            (match mapGet files h with
             | some doc =>
               { d0 with
                 analysisHref := some h, analysisType := "xml",
                 title := jsOr doc.title d0.title,
                 status := if doc.available = some "true"
                   then "active" else "unpublished",
                 clarifiedType := if doc.quizType = some "survey"
                   then "survey" else "quiz" }
             | none => d0)
          | none => d0)
       | none => d0)
    else if isDiscF t then
      (let bodyPath := (r.identifier.getD "null") ++ ".xml"
       let d1 := { d0 with clarifiedType := "discussion" }
       match mapGet files bodyPath with
       | some bodyDoc =>
         (let d2 := { d1 with
            analysisHref := some bodyPath, analysisType := "discussion_xml",
            title := jsOr bodyDoc.title d1.title }
          let dep := (r.deps.head?).bind (fun d => d.identifierRefCamel)
          match findResourceByRefAttr rs dep with
          | some mr =>
            (match mr.href with
             | some h =>
               (match mapGet files h with
                | some sd =>
                  { d2 with
                    status := statusOfWS sd.workflowState,
                    clarifiedType := if sd.typeText = some "announcement"
                      then "announcement" else d2.clarifiedType }
                | none => d2)
             | none => d2)
          | none => d2)
       | none => d1)
    else d0
  Except.ok res

/-- Run the `main.js` resource loop over a suffix of the resource list
(`rs0` is the whole list, used by the dependency-lookup helper). -/
def mainClassifyList (rs0 : List ResourceEl) (files : List (String × Doc)) :
    List ResourceEl → Except String (List MainRec)
  | [] => Except.ok []
  | r :: rest =>
    match mainClassifyResource rs0 files r with
    | Except.error msg => Except.error msg
    | Except.ok s =>
      match mainClassifyList rs0 files rest with
      | Except.error msg => Except.error msg
      | Except.ok l => Except.ok (s :: l)

/-- The full `main.js` resource loop: every manifest resource is classified
and pushed onto `allResources`, in document order. -/
def mainClassifyAll (rs : List ResourceEl) (files : List (String × Doc)) :
    Except String (List MainRec) :=
  mainClassifyList rs files rs

/-- A link record produced by `findLinks`. -/
structure LinkRec where
  url : String
  text : String
  itemTitle : String
  type : String
deriving DecidableEq, Repr

/-- The anchor filter of `findLinks`: truthy href, not a fragment, not a
mailto, and not an instructure file-attachment link. -/
def linkKeep (a : Anchor) : Bool :=
  a.href != "" && !(jsStartsWith a.href "#") && !(jsStartsWith a.href "mailto") &&
    !(a.classes.contains "instructure_file_link") &&
    !(a.classes.contains "instructure_scribd_file")

/-- The link-type chain of `findLinks`. -/
def linkTypeOf (h : String) : String :=
  if jsStartsWith h "$CANVAS" || jsIncludes h "$WIKI_REFERENCE$" then "course"
  else if jsIncludes h ".osu.edu" || jsIncludes h ".ohio-state.edu" then "osu"
  else "external"

/-- The anchor walk of `findLinks`, in document order. -/
def findLinksList (itemTitle : String) : List Anchor → List LinkRec
  | [] => []
  | a :: as =>
    (if linkKeep a then
      [{ url := a.href, text := jsTrim a.text, itemTitle := itemTitle,
         type := linkTypeOf a.href }]
     else []) ++ findLinksList itemTitle as

/-- `findLinks(doc, item)`: collect link records from the document's
`a[href]` elements, tagged with the item's title. -/
def findLinks (doc : Doc) (item : ItemData) : List LinkRec :=
  findLinksList item.title doc.anchors

/-- Modelled from the claim wording of C10, for comparison with `findLinks`:
skip an anchor whose href starts with a fragment or mailto marker or whose
class list contains an instructure file-link class, and otherwise classify
the href as course, osu or external. -/
def claimLinkOf (itemTitle : String) (a : Anchor) : Option LinkRec :=
  if jsStartsWith a.href "#" || jsStartsWith a.href "mailto" ||
      a.classes.contains "instructure_file_link" ||
      a.classes.contains "instructure_scribd_file" then none
  else
    some {
      url := a.href, text := jsTrim a.text, itemTitle := itemTitle,
      type :=
        if jsStartsWith a.href "$CANVAS" || jsIncludes a.href "$WIKI_REFERENCE$"
          then "course"
        else if jsIncludes a.href ".osu.edu" || jsIncludes a.href ".ohio-state.edu"
          then "osu"
        else "external" }

/-- The quiz resource of the unresolved-dependency scenario, as a
`resourceMap` entry: QTI assessment type, one dependency whose identifier
matches no resource. -/
def rmC1 : RMapEntry :=
  { type := some "imsqti_xmlv1p2/imscc_xmlv1p1/assessment", href := none,
    deps := [some "missing"] }

/-- An archive with a single quiz resource whose dependency resolves to no
companion resource. -/
def archC1 : Archive := {
  manifest := some {
    resources := [{
      identifier := some "q1",
      type := some "imsqti_xmlv1p2/imscc_xmlv1p1/assessment",
      deps := [{ identifierref := some "missing" }] }] } }

/-- The record the pipeline produces for the unresolved quiz resource. -/
def itemC1 : ItemData :=
  { title := "q1", type := some "imsqti_xmlv1p2/imscc_xmlv1p1/assessment",
    clarifiedType := "unspecified", href := none, status := "unpublished",
    indent := some 0, inModule := false, moduleTitle := none,
    contentType := none, identifier := none, identifierref := none }

/-- An archive with one discussion resource and no other content, used to
run the pipeline twice over the shared global accumulators. -/
def archC2 : Archive := {
  manifest := some {
    resources := [{ identifier := some "d1", type := some "imsdt_xmlv1p1" }] } }

/-- The single record the first run produces. -/
def itemC2 : ItemData :=
  { title := "d1", type := some "imsdt_xmlv1p1", clarifiedType := "discussion",
    href := none, status := "unpublished", indent := some 0, inModule := false,
    moduleTitle := none, contentType := none, identifier := none,
    identifierref := none }

/-- The global state after the first run. -/
def stC2a : PState := { courseStructure := [], allCourseContent := [itemC2] }

/-- The global state after the second run on the same input: the content
list holds every item twice. -/
def stC2b : PState :=
  { courseStructure := [], allCourseContent := [itemC2, itemC2] }

/-- An archive whose manifest is present but declares a resource without a
type attribute. -/
def archC3cx : Archive := {
  manifest := some { resources := [{ identifier := some "r1" }] } }

/-- An archive with no entries at all (in particular no manifest). -/
def archNoManifest : Archive := {}

/-- The organization tree of the fallback-scenario archive. -/
def orgC3w : OrgItem :=
  .node (some "LV1") none (some "Org")
    [.node (some "m1") none (some "Week 1")
      [.node (some "i1") (some "r1") (some "Item A") []]]

/-- The manifest of the fallback-scenario archive. -/
def mC3w : ManifestDoc := {
  resources := [{
    identifier := some "r1", type := some "webcontent",
    href := some "wiki_content/a.html" }],
  orgRoot := some orgC3w }

/-- A fallback-scenario archive: manifest present with an organization
tree, module metadata absent, one wiki page. -/
def archC3w : Archive := {
  manifest := some mC3w,
  moduleMeta := none,
  files := [("wiki_content/a.html",
    { title := some "Page A", metaWorkflowContent := some "active" })] }

/-- A `resourceMap` entry matching none of the classification rules. -/
def rmC4 : RMapEntry := { type := some "webcontent", href := none, deps := [] }

/-- An archive with one discussion resource, used to exhibit a non-empty
final content list. -/
def archC4 : Archive := {
  manifest := some {
    resources := [{ identifier := some "c4", type := some "imsdt_xmlv1p1" }] } }

/-- The record the pipeline produces for the discussion resource. -/
def itemC4 : ItemData :=
  { title := "c4", type := some "imsdt_xmlv1p1", clarifiedType := "discussion",
    href := none, status := "unpublished", indent := some 0, inModule := false,
    moduleTitle := none, contentType := none, identifier := none,
    identifierref := none }

/-- The final state for `archC4`. -/
def stC4 : PState := { courseStructure := [], allCourseContent := [itemC4] }

/-- The discussion resource of the announcement-precedence scenario. -/
def rmC5 : RMapEntry :=
  { type := some "imsdt_xmlv1p1", href := none, deps := [some "dep1"] }

/-- The files of the announcement-precedence scenario: the discussion body
and the dependency's settings XML declaring type announcement. -/
def filesC5 : List (String × Doc) :=
  [("d1.xml", { title := some "Topic" }),
   ("dep1.xml",
    { typeText := some "announcement", workflowState := some "active" })]

/-- The page document of the workflow-state round-trip witness. -/
def docC6 : Doc :=
  { title := some "Page T", metaWorkflowContent := some "active" }

/-- The wiki-page resource of the round-trip witness. -/
def rmC6 : RMapEntry :=
  { type := some "webcontent", href := some "wiki_content/p.html", deps := [] }

/-- The file mapping of the round-trip witness. -/
def filesC6 : List (String × Doc) := [("wiki_content/p.html", docC6)]

/-- A page body whose workflow_state meta carries a value other than
"active" and whose title element has empty text. -/
def docC6b : Doc :=
  { title := some "", metaWorkflowContent := some "published" }

/-- The page resource of the other-value scenario. -/
def rmC6b : RMapEntry :=
  { type := some "webcontent", href := some "wiki_content/q.html", deps := [] }

/-- The file mapping of the other-value scenario. -/
def filesC6b : List (String × Doc) := [("wiki_content/q.html", docC6b)]

/-- A page body with no workflow_state meta tag and no title element. -/
def docC6c : Doc := { }

/-- The page resource of the absent-tag scenario. -/
def rmC6c : RMapEntry :=
  { type := some "webcontent", href := some "wiki_content/r.html", deps := [] }

/-- The file mapping of the absent-tag scenario. -/
def filesC6c : List (String × Doc) := [("wiki_content/r.html", docC6c)]

/-- The assignment end-to-end archive: manifest with one
learning-application resource, its settings file, and its HTML body. -/
def archC7 : Archive := {
  manifest := some {
    resources := [{
      identifier := some "r1",
      type := some "associatedcontent/imscc_xmlv1p1/learning-application-resource",
      href := some "r1/foo.html" }],
    orgRoot := none },
  moduleMeta := none,
  files := [
    ("r1/assignment_settings.xml",
      { title := some "HW1", workflowState := some "active" }),
    ("r1/foo.html", { title := some "ignored" })] }

/-- The same archive without the settings file. -/
def archC7b : Archive := {
  manifest := some {
    resources := [{
      identifier := some "r1",
      type := some "associatedcontent/imscc_xmlv1p1/learning-application-resource",
      href := some "r1/foo.html" }],
    orgRoot := none },
  moduleMeta := none,
  files := [("r1/foo.html", { title := some "ignored" })] }

/-- The same archive without the HTML body. -/
def archC7c : Archive := {
  manifest := some {
    resources := [{
      identifier := some "r1",
      type := some "associatedcontent/imscc_xmlv1p1/learning-application-resource",
      href := some "r1/foo.html" }],
    orgRoot := none },
  moduleMeta := none,
  files := [("r1/assignment_settings.xml",
    { title := some "HW1", workflowState := some "active" })] }

/-- The resolved item for the full scenario. -/
def itemC7 : ItemData :=
  { title := "HW1",
    type := some "associatedcontent/imscc_xmlv1p1/learning-application-resource",
    clarifiedType := "assignment", href := some "r1/foo.html",
    status := "active", indent := some 0, inModule := false,
    moduleTitle := none, contentType := none, identifier := none,
    identifierref := none }

/-- The resolved item when the settings file is absent. -/
def itemC7b : ItemData :=
  { title := "r1",
    type := some "associatedcontent/imscc_xmlv1p1/learning-application-resource",
    clarifiedType := "assignment", href := some "r1/foo.html",
    status := "unpublished", indent := some 0, inModule := false,
    moduleTitle := none, contentType := none, identifier := none,
    identifierref := none }

/-- The resolved item when the HTML body is absent. -/
def itemC7c : ItemData :=
  { title := "HW1",
    type := some "associatedcontent/imscc_xmlv1p1/learning-application-resource",
    clarifiedType := "assignment", href := some "r1/foo.html",
    status := "active", indent := some 0, inModule := false,
    moduleTitle := none, contentType := none, identifier := none,
    identifierref := none }

/-- The organization tree of the merge counterexample: a root item titled
Org with one child item i1 that references resource r1 and carries the
title r2. -/
def orgC8 : OrgItem :=
  .node (some "LV1") none (some "Org")
    [.node (some "i1") (some "r1") (some "r2") []]

/-- The merge counterexample archive: two discussion resources r1 (with a
body titled DiscA) and r2 (untitled, so its item title is the identifier
r2); one metadata module Mod whose single item i1 references r1 via the
manifest item, whose computed title is r2. -/
def archC8 : Archive := {
  manifest := some {
    resources := [
      { identifier := some "r1", type := some "imsdt_xmlv1p1" },
      { identifier := some "r2", type := some "imsdt_xmlv1p1" }],
    orgRoot := some orgC8 },
  moduleMeta := some { modules := [{
    identifier := some "m1", title := some "Mod",
    workflowState := some "active",
    items := [{ identifier := some "i1", title := some "MetaTitle" }] }] },
  files := [("r1.xml", { title := some "DiscA" })] }

/-- The resolved item for r1 after the merge: untouched by the merge, its
module title is the one computed from the manifest parent (Org). -/
def itemC8r1 : ItemData :=
  { title := "DiscA", type := some "imsdt_xmlv1p1",
    clarifiedType := "discussion", href := none, status := "unpublished",
    indent := some 0, inModule := true, moduleTitle := some "Org",
    contentType := some "N/A", identifier := none, identifierref := none }

/-- The resolved item for r2 after the merge: updated by the title-equality
fallback even though the module item's identifier reference points at
r1. -/
def itemC8r2 : ItemData :=
  { title := "r2", type := some "imsdt_xmlv1p1",
    clarifiedType := "discussion", href := none, status := "unpublished",
    indent := some 0, inModule := true, moduleTitle := some "Mod",
    contentType := some "N/A", identifier := some "i1",
    identifierref := some "r1" }

/-- The final state of the merge counterexample. -/
def stC8 : PState := {
  courseStructure := [{
    title := "Mod",
    items := [{
      title := "r2", identifier := some "i1", identifierref := some "r1",
      status := "unpublished", indent := some 0,
      clarifiedType := "unspecified", contentType := "N/A" }],
    status := "active" }],
  allCourseContent := [itemC8r1, itemC8r2] }

/-- The analysis record pushed for r1 (snapshot taken before the merge). -/
def ciC8 : ContentItem := {
  item := {
    title := "DiscA", type := some "imsdt_xmlv1p1",
    clarifiedType := "discussion", href := some "r1.xml",
    status := "unpublished", indent := some 0, inModule := true,
    moduleTitle := some "Org", contentType := some "N/A",
    identifier := none, identifierref := none },
  analysisType := "discussion_xml" }

/-- A content item titled A, not matched by the module item below. -/
def dW : ItemData :=
  { title := "A", type := none, clarifiedType := "page", href := none,
    status := "active", indent := some 0, inModule := false,
    moduleTitle := none, contentType := none, identifier := none,
    identifierref := none }

/-- A content item titled B, matched by the module item below. -/
def dX : ItemData :=
  { title := "B", type := none, clarifiedType := "page", href := none,
    status := "active", indent := some 0, inModule := false,
    moduleTitle := none, contentType := none, identifier := none,
    identifierref := none }

/-- A module item titled B with indent 3. -/
def itX : ModuleItem :=
  { title := "B", identifier := some "i9", identifierref := some "r9",
    status := "active", indent := some 3, clarifiedType := "unspecified",
    contentType := "N/A" }

/-- A web-link resource for the `main.js` classifier. -/
def resC9 : ResourceEl := { identifier := some "r1", type := some "imswl_xmlv1p1" }

/-- The record the `main.js` classifier produces for the link resource. -/
def recC9 : MainRec :=
  { identifier := some "r1", title := "untitled", identifierref := none,
    status := "unknown", clarifiedType := "link",
    contentType := some "imswl_xmlv1p1", analysisHref := none,
    analysisType := "html" }

/-- The kept anchor of the link-extractor witness: a Canvas course
reference. -/
def aCourse : Anchor :=
  { href := "$CANVAS_COURSE_REFERENCE$/x", text := " Link ", classes := [] }

/-- The skipped anchor of the link-extractor witness: a mailto link. -/
def aMailto : Anchor := { href := "mailto:x@y", text := "m", classes := [] }

/-- A document holding only the kept anchor. -/
def docC10 : Doc := { anchors := [aCourse] }

/-- The item whose title tags the extracted links. -/
def itemC10 : ItemData :=
  { title := "It", type := none, clarifiedType := "page", href := none,
    status := "active", indent := some 0, inModule := false,
    moduleTitle := none, contentType := none, identifier := none,
    identifierref := none }

/-- The record extracted from the kept anchor. -/
def recC10 : LinkRec :=
  { url := "$CANVAS_COURSE_REFERENCE$/x", text := "Link", itemTitle := "It",
    type := "course" }

/-- Two prefixes that agree on the first character but differ on the second
cannot both be prefixes of the same list. -/
theorem isPrefixOf_ne_second {a b c : Char} (hbc : b ≠ c) (p q l : List Char)
    (hp : List.isPrefixOf (a :: b :: p) l = true) :
    List.isPrefixOf (a :: c :: q) l = false := by
  match l with
  | [] => simp [List.isPrefixOf] at hp
  | x :: [] => simp [List.isPrefixOf] at hp
  | x :: y :: ys =>
    simp [List.isPrefixOf] at hp ⊢
    intro h1 h2
    exact absurd (hp.2.1 ▸ h2.symm) hbc

/-- A wiki-storage href is not a file-storage href. -/
theorem wiki_not_web (h : String) (hw : jsStartsWith h "wiki_content/" = true) :
    jsStartsWith h "web_resources/" = false := by
  have e1 : "wiki_content/".toList
      = 'w' :: 'i' :: "ki_content/".toList := rfl
  have e2 : "web_resources/".toList
      = 'w' :: 'e' :: "b_resources/".toList := rfl
  unfold jsStartsWith at hw ⊢
  rw [e1] at hw
  rw [e2]
  exact isPrefixOf_ne_second (by decide) _ _ _ hw

/-- A wiki-storage href is non-empty. -/
theorem wiki_ne_empty (h : String) (hw : jsStartsWith h "wiki_content/" = true) :
    h ≠ "" := by
  intro he
  subst he
  exact absurd hw (by decide)

/-- The page branch changes neither the type nor the href field. -/
theorem pageBranch_preserves (files : List (String × Doc)) (d : ItemData)
    (h : String) :
    (pageBranch files d h).1.type = d.type ∧ (pageBranch files d h).1.href = d.href := by
  unfold pageBranch
  split <;> simp

/-- The assignment branch changes neither the type nor the href field. -/
theorem assignmentBranch_preserves (files : List (String × Doc)) (idRef : String)
    (d : ItemData) :
    (assignmentBranch files idRef d).1.type = d.type ∧
      (assignmentBranch files idRef d).1.href = d.href := by
  unfold assignmentBranch
  dsimp only
  split <;> simp

/-- The quiz branch changes neither the type nor the href field. -/
theorem quizBranch_preserves (rMap : List (String × RMapEntry))
    (files : List (String × Doc)) (rm : RMapEntry) (d : ItemData) :
    (quizBranch rMap files rm d).1.type = d.type ∧
      (quizBranch rMap files rm d).1.href = d.href := by
  unfold quizBranch
  split <;> simp

/-- The discussion branch changes neither the type nor the href field. -/
theorem discussionBranch_preserves (files : List (String × Doc)) (rm : RMapEntry)
    (idRef : String) (d : ItemData) :
    (discussionBranch files rm idRef d).1.type = d.type ∧
      (discussionBranch files rm idRef d).1.href = d.href := by
  unfold discussionBranch
  dsimp only
  split
  · simp
  · split
    · split <;> simp
    · simp

/-- A successful classification step preserves the resource's type and href
in the item record, and the pushed flag is the push condition at the
resource's type and href. -/
theorem classifyResource_fields (files : List (String × Doc))
    (imm : List (String × MetaEntry)) (ids : List String)
    (rnodes : List (String × OrgNode)) (rMap : List (String × RMapEntry))
    (idRef : String) (rm : RMapEntry) (s : StepOut)
    (h : classifyResource files imm ids rnodes rMap idRef rm = Except.ok s) :
    s.item.type = rm.type ∧ s.item.href = rm.href ∧
      ∃ t, rm.type = some t ∧ s.pushed = pushCondT t rm.href := by
  unfold classifyResource at h
  dsimp only at h
  split at h
  · exact absurd h (by simp)
  · split at h
    · exact absurd h (by simp)
    · rename_i moduleTitle t ht
      refine ?_
      rw [Except.ok.injEq] at h
      subst h
      dsimp only
      refine ⟨?_, ?_, t, ht, rfl⟩ <;>
      · split
        · simp
        · split
          · simp
          · split
            · simp
            · split
              · split <;> simp [pageBranch_preserves, (pageBranch_preserves files _ _).1,
                  (pageBranch_preserves files _ _).2]
              · split
                · simp [(assignmentBranch_preserves files idRef _).1,
                    (assignmentBranch_preserves files idRef _).2]
                · split
                  · simp [(quizBranch_preserves rMap files rm _).1,
                      (quizBranch_preserves rMap files rm _).2]
                  · split
                    · simp [(discussionBranch_preserves files rm idRef _).1,
                        (discussionBranch_preserves files rm idRef _).2]
                    · simp

/-- Every item collected by the resource loop carries a present type at
which the push condition holds. -/
theorem classifyAll_pushed (files : List (String × Doc))
    (imm : List (String × MetaEntry)) (ids : List String)
    (rnodes : List (String × OrgNode)) (rMap : List (String × RMapEntry)) :
    ∀ (l : List (String × RMapEntry)) (items : List ItemData)
      (cis : List ContentItem),
      classifyAll files imm ids rnodes rMap l = Except.ok (items, cis) →
      ∀ d ∈ items, ∃ t, d.type = some t ∧ pushCondT t d.href = true := by
  intro l
  induction l with
  | nil =>
    intro items cis h d hd
    simp [classifyAll] at h
    rcases h with ⟨h1, h2⟩
    subst h1
    simp at hd
  | cons e rest ih =>
    intro items cis h d hd
    rw [classifyAll] at h
    cases hs : classifyResource files imm ids rnodes rMap e.1 e.2 with
    | error msg => rw [hs] at h; exact absurd h (by simp [Except.bind])
    | ok s =>
      rw [hs] at h
      cases hr : classifyAll files imm ids rnodes rMap rest with
      | error msg => rw [hr] at h; exact absurd h (by simp [Except.bind])
      | ok pr =>
        rw [hr] at h
        simp [Except.bind] at h
        rcases h with ⟨h1, h2⟩
        subst h1
        rcases List.mem_append.mp hd with hmem | hmem
        · by_cases hp : s.pushed
          · simp [hp] at hmem
            subst hmem
            obtain ⟨hty, hhr, t, htt, hps⟩ := classifyResource_fields _ _ _ _ _ _ _ _ hs
            exact ⟨t, by rw [hty, htt], by rw [hhr, ← hps, hp]⟩
          · simp [hp] at hmem
        · exact ih pr.1 pr.2 (by rw [hr]) d hmem

/-- The merge update never changes the type or href of an entry. -/
theorem mergeItemInto_map_pair (c : List ItemData) (mt : String) (it : ModuleItem) :
    (mergeItemInto c mt it).map (fun d => (d.type, d.href))
      = c.map (fun d => (d.type, d.href)) := by
  induction c with
  | nil => rfl
  | cons d ds ih =>
    rw [mergeItemInto]
    split
    · simp [mergedItem]
    · simp [ih]

/-- Merging a module never changes types or hrefs. -/
theorem mergeModule_map_pair (m : Module) :
    ∀ c : List ItemData,
      (mergeModule c m).map (fun d => (d.type, d.href))
        = c.map (fun d => (d.type, d.href)) := by
  unfold mergeModule
  induction m.items with
  | nil => intro c; rfl
  | cons it its ih =>
    intro c
    simp only [List.foldl_cons]
    rw [ih]
    exact mergeItemInto_map_pair c m.title it

/-- The whole merge never changes types or hrefs. -/
theorem mergeAll_map_pair (ms : List Module) :
    ∀ c : List ItemData,
      (mergeAll c ms).map (fun d => (d.type, d.href))
        = c.map (fun d => (d.type, d.href)) := by
  unfold mergeAll
  induction ms with
  | nil => intro c; rfl
  | cons m rest ih =>
    intro c
    simp only [List.foldl_cons]
    rw [ih]
    exact mergeModule_map_pair m c

/-- Every member of the merged list shares its type and href with a member
of the unmerged list. -/
theorem mergeAll_mem_pair (ms : List Module) (c : List ItemData) (d : ItemData)
    (hd : d ∈ mergeAll c ms) :
    ∃ d0 ∈ c, d0.type = d.type ∧ d0.href = d.href := by
  have hm : (d.type, d.href) ∈ (mergeAll c ms).map (fun x => (x.type, x.href)) :=
    List.mem_map.mpr ⟨d, hd, rfl⟩
  rw [mergeAll_map_pair] at hm
  obtain ⟨d0, hd0, he⟩ := List.mem_map.mp hm
  exact ⟨d0, hd0, congrArg Prod.fst he, congrArg Prod.snd he⟩

/-- Every item in the final content list of a successful run from the
initial state satisfies the push condition at its own type and href. -/
theorem process_content_pushCond (a : Archive) (st : PState)
    (items : List ContentItem)
    (h : processAndAnalyze initState a = Except.ok (st, items)) :
    ∀ d ∈ st.allCourseContent, ∃ t, d.type = some t ∧ pushCondT t d.href = true := by
  unfold processAndAnalyze at h
  split at h
  · exact absurd h (by simp)
  · rename_i m
    dsimp only at h
    split at h
    · exact absurd h (by simp)
    · rename_i r hr
      rw [Except.ok.injEq, Prod.mk.injEq] at h
      intro d hd
      rw [← h.1] at hd
      dsimp only [initState] at hd
      obtain ⟨d0, hd0, hty, hhr⟩ := mergeAll_mem_pair _ _ _ hd
      rw [List.nil_append] at hd0
      obtain ⟨t, h1, h2⟩ :=
        classifyAll_pushed _ _ _ _ _ _ r.1 r.2 (by rw [hr]) d0 hd0
      exact ⟨t, by rw [← hty, h1], by rw [← hhr, h2]⟩

theorem unmatched_step (files : List (String × Doc)) (imm : List (String × MetaEntry))
    (ids : List String) (rnodes : List (String × OrgNode))
    (rMap : List (String × RMapEntry)) (idRef : String) (rm : RMapEntry) (t : String)
    (ht : rm.type = some t) (hctx : mapGet rnodes idRef = none)
    (hL : isLinkF t = false) (hF : isFileF t rm.href = false)
    (hP : isPageF t rm.href = false) (hA : isAssignF t rm.href = false)
    (hQ : isQuizF t = false) (hD : isDiscF t = false) :
    ∃ s, classifyResource files imm ids rnodes rMap idRef rm = Except.ok s ∧
      s.item.clarifiedType = "unspecified" ∧ s.pushed = false ∧ s.analysis = none := by
  unfold classifyResource
  rw [hctx, ht]
  dsimp only
  simp only [jsTruthy, Option.bind, hL, hF, hP, hA, hQ, hD, pushCondT]
  simp

/-- A type URN containing the QTI assessment marker is not the bare
webcontent type. -/
theorem quiz_not_webcontent (t : String) (hq : isQuizF t = true) :
    (t == "webcontent") = false := by
  by_cases h : t = "webcontent"
  · subst h
    exact absurd hq (by decide)
  · exact beq_eq_false_iff_ne.mpr h

/-- A type URN containing the discussion marker is not the bare webcontent
type. -/
theorem disc_not_webcontent (t : String) (hd : isDiscF t = true) :
    (t == "webcontent") = false := by
  by_cases h : t = "webcontent"
  · subst h
    exact absurd hd (by decide)
  · exact beq_eq_false_iff_ne.mpr h

/-- C1 (amended): a resource whose type carries the QTI assessment marker
but whose dependency chain does not resolve to a companion resource with an
href is still recorded without a throw and with no analysis target, but its
clarified type remains the initial placeholder "unspecified", not "quiz". -/
theorem quiz_unresolved_step (files : List (String × Doc))
    (imm : List (String × MetaEntry)) (ids : List String)
    (rnodes : List (String × OrgNode)) (rMap : List (String × RMapEntry))
    (idRef : String) (rm : RMapEntry) (t : String)
    (ht : rm.type = some t) (hctx : mapGet rnodes idRef = none)
    (hq : isQuizF t = true) (hL : isLinkF t = false)
    (hA : isAssignF t rm.href = false)
    (hres : quizResolve rMap files rm = none) :
    ∃ s, classifyResource files imm ids rnodes rMap idRef rm = Except.ok s ∧
      s.pushed = true ∧ s.item.clarifiedType = "unspecified" ∧
      s.analysis = none := by
  have hweb := quiz_not_webcontent t hq
  unfold classifyResource
  rw [hctx, ht]
  dsimp only
  simp only [jsTruthy, Option.bind, hL, hA, hq, isFileF, isPageF, hweb,
    Bool.false_and, pushCondT, quizBranch, hres]
  simp

/-- Appending a non-empty suffix yields a non-empty string. -/
theorem append_xml_ne_empty (s : String) : s ++ ".xml" ≠ "" := by
  intro h
  have hl := congrArg String.length h
  rw [String.length_append] at hl
  have h4 : ".xml".length = 4 := rfl
  have h0 : ("" : String).length = 0 := rfl
  omega

/-- C5: a discussion resource whose body file idRef.xml is present and whose
first dependency resolves to a settings document with type text
"announcement" ends with clarified type "announcement", while the discussion
body stays the analysis target with analysis type "discussion_xml". -/
theorem discussion_announcement_step (files : List (String × Doc))
    (imm : List (String × MetaEntry)) (ids : List String)
    (rnodes : List (String × OrgNode)) (rMap : List (String × RMapEntry))
    (idRef : String) (rm : RMapEntry) (t k : String) (bodyDoc sd : Doc)
    (ht : rm.type = some t) (hctx : mapGet rnodes idRef = none)
    (hd : isDiscF t = true) (hL : isLinkF t = false)
    (hA : isAssignF t rm.href = false) (hQ : isQuizF t = false)
    (hb : mapGet files (idRef ++ ".xml") = some bodyDoc)
    (hdep : rm.deps.head? = some (some k)) (hk : k ≠ "")
    (hsd : mapGet files (k ++ ".xml") = some sd)
    (hann : sd.typeText = some "announcement") :
    ∃ s, classifyResource files imm ids rnodes rMap idRef rm = Except.ok s ∧
      s.item.clarifiedType = "announcement" ∧ s.pushed = true ∧
      ∃ c, s.analysis = some c ∧ c.analysisType = "discussion_xml" ∧
        c.item.href = some (idRef ++ ".xml") ∧
        c.item.clarifiedType = "announcement" := by
  have hweb := disc_not_webcontent t hd
  unfold classifyResource
  rw [hctx, ht]
  dsimp only
  simp only [jsTruthy, Option.bind, hL, hA, hQ, hd, isFileF, isPageF, hweb,
    Bool.false_and, pushCondT, discussionBranch, hb, hdep, hsd, hann]
  simp [jsTruthy, hk, hsd, hann, append_xml_ne_empty]

/-- C6: a webcontent resource with a wiki_content/ href whose HTML body is
present is classified as a page; its status is exactly "active" when the
workflow_state meta content is "active" and exactly "unpublished" for every
other content value and when the tag is absent, and the item title is the
document title passed through the JS or-chain: a present title text becomes
the item title (an empty text is falsy in JS and falls back to the
identifier-derived default, here the resource identifier reference). -/
theorem page_step (files : List (String × Doc)) (imm : List (String × MetaEntry))
    (ids : List String) (rnodes : List (String × OrgNode))
    (rMap : List (String × RMapEntry)) (idRef h : String) (doc : Doc)
    (rm : RMapEntry)
    (ht : rm.type = some "webcontent") (hh : rm.href = some h)
    (hw : jsStartsWith h "wiki_content/" = true)
    (hctx : mapGet rnodes idRef = none)
    (hf : mapGet files h = some doc) :
    ∃ s, classifyResource files imm ids rnodes rMap idRef rm = Except.ok s ∧
      s.item.clarifiedType = "page" ∧
      s.item.status
        = (if doc.metaWorkflowContent = some "active" then "active"
           else "unpublished") ∧
      s.item.title = jsOr doc.title idRef ∧
      s.pushed = true := by
  have hne := wiki_ne_empty h hw
  have hnw := wiki_not_web h hw
  have eL : jsIncludes "webcontent" "imswl_xmlv1p1" = false := by decide
  have eA : jsIncludes "webcontent"
      "associatedcontent/imscc_xmlv1p1/learning-application-resource" = false := by
    decide
  have eQ : jsIncludes "webcontent" "imsqti_xmlv1p2/imscc_xmlv1p1/assessment"
      = false := by decide
  have eD : jsIncludes "webcontent" "imsdt_xmlv1p1" = false := by decide
  unfold classifyResource
  rw [hctx, ht, hh]
  dsimp only
  simp only [jsTruthy, Option.bind, isLinkF, isFileF, isPageF, isAssignF,
    isQuizF, isDiscF, pushCondT, eL, eA, eQ, eD, hnw, hw, pageBranch, hf,
    if_neg hne]
  simp only [Bool.false_and, Bool.and_true, Bool.true_and, Bool.false_or,
    Bool.or_false, beq_self_eq_true, if_true, if_false]
  refine ⟨_, rfl, rfl, rfl, ?_, rfl⟩
  simp [jsOr, jsTruthy]

/-- `mapSet` preserves a predicate on stored values. -/
theorem mapSet_values {α : Type} (P : α → Prop) (m : List (String × α))
    (k : String) (v : α) (hm : ∀ e ∈ m, P e.2) (hv : P v) :
    ∀ e ∈ mapSet m k v, P e.2 := by
  intro e he
  unfold mapSet at he
  split at he
  · obtain ⟨p, hp, hpe⟩ := List.mem_map.mp he
    by_cases hk : p.1 == k
    · rw [if_pos hk] at hpe
      rw [← hpe]
      exact hv
    · rw [if_neg hk] at hpe
      rw [← hpe]
      exact hm p hp
  · rcases List.mem_append.mp he with h1 | h1
    · exact hm e h1
    · simp at h1
      rw [h1]
      exact hv

/-- A `mapGet` result is the value of some stored entry. -/
theorem mapGet_mem {α : Type} (m : List (String × α)) (k : String) (v : α)
    (h : mapGet m k = some v) : ∃ e ∈ m, e.2 = v := by
  unfold mapGet at h
  cases hf : m.find? (fun p => p.1 == k) with
  | none => rw [hf] at h; simp at h
  | some p =>
    rw [hf] at h
    simp at h
    exact ⟨p, List.mem_of_find?_eq_some hf, h⟩

/-- A subtree whose items all carry titles has a first title. -/
theorem orgAllTitles_firstTitle (o : OrgItem) (h : orgAllTitles o = true) :
    (firstTitleWithin o).isSome = true := by
  cases o with
  | node i r t ch =>
    rw [orgAllTitles] at h
    simp only [Bool.and_eq_true] at h
    obtain ⟨h1, _⟩ := h
    cases t with
    | none => simp at h1
    | some s => rfl

mutual
/-- When the parent title query is present and every item carries a title,
every flattened node of a subtree has a present parent title query. -/
theorem orgNodes_parent_isSome (pq : Option String) (o : OrgItem)
    (hpq : pq.isSome = true) (hT : orgAllTitles o = true) :
    ∀ n ∈ orgNodes pq o, n.parentTitleQ.isSome = true := by
  cases o with
  | node i r t ch =>
    intro n hn
    rw [orgNodes] at hn
    rcases List.mem_cons.mp hn with h1 | h1
    · rw [h1]
      exact hpq
    · have hfs : (firstTitleWithin (OrgItem.node i r t ch)).isSome = true :=
        orgAllTitles_firstTitle _ hT
      rw [orgAllTitles] at hT
      simp only [Bool.and_eq_true] at hT
      exact orgNodesList_parent_isSome _ ch hfs hT.2 n h1

/-- List version of `orgNodes_parent_isSome`. -/
theorem orgNodesList_parent_isSome (pq : Option String) (ch : List OrgItem)
    (hpq : pq.isSome = true) (hT : orgAllTitlesList ch = true) :
    ∀ n ∈ orgNodesList pq ch, n.parentTitleQ.isSome = true := by
  cases ch with
  | nil => intro n hn; rw [orgNodesList] at hn; simp at hn
  | cons c cs =>
    intro n hn
    rw [orgNodesList] at hn
    rw [orgAllTitlesList] at hT
    simp only [Bool.and_eq_true] at hT
    obtain ⟨h1, h2⟩ := hT
    rcases List.mem_append.mp hn with hm | hm
    · exact orgNodes_parent_isSome pq c hpq h1 n hm
    · exact orgNodesList_parent_isSome pq cs hpq h2 n hm
end

/-- An `isOk` result is an `ok` value. -/
theorem isOk_exists {ε α : Type} (e : Except ε α) (h : e.isOk = true) :
    ∃ a, e = Except.ok a := by
  cases e with
  | error msg => simp [Except.isOk, Except.toBool] at h
  | ok a => exact ⟨a, rfl⟩

/-- A classification step succeeds whenever the resource carries a type and
every stored manifest-item reference has a present parent title query. -/
theorem classifyResource_isOk (files : List (String × Doc))
    (imm : List (String × MetaEntry)) (ids : List String)
    (rnodes : List (String × OrgNode)) (rMap : List (String × RMapEntry))
    (idRef : String) (rm : RMapEntry)
    (ht : rm.type.isSome = true)
    (hp : ∀ e ∈ rnodes, e.2.parentTitleQ.isSome = true) :
    (classifyResource files imm ids rnodes rMap idRef rm).isOk = true := by
  cases hrt : rm.type with
  | none => rw [hrt] at ht; simp at ht
  | some t =>
    cases hm : mapGet rnodes idRef with
    | none =>
      unfold classifyResource
      rw [hm, hrt]
      rfl
    | some n =>
      have hpn : n.parentTitleQ.isSome = true := by
        obtain ⟨e, he, hev⟩ := mapGet_mem _ _ _ hm
        rw [← hev]
        exact hp e he
      obtain ⟨s0, hq⟩ := Option.isSome_iff_exists.mp hpn
      unfold classifyResource
      rw [hm, hrt]
      dsimp only [Option.bind]
      cases hj : jsTruthy n.identifier with
      | none => rfl
      | some k =>
        dsimp only
        cases hc : ids.contains k with
        | false => rfl
        | true =>
          dsimp only
          rw [hq]
          rfl

/-- The resource loop succeeds when every entry carries a type and every
stored manifest-item reference has a present parent title query. -/
theorem classifyAll_isOk (files : List (String × Doc))
    (imm : List (String × MetaEntry)) (ids : List String)
    (rnodes : List (String × OrgNode)) (rMap : List (String × RMapEntry))
    (hp : ∀ e ∈ rnodes, e.2.parentTitleQ.isSome = true) :
    ∀ l : List (String × RMapEntry), (∀ e ∈ l, e.2.type.isSome = true) →
      (classifyAll files imm ids rnodes rMap l).isOk = true := by
  intro l
  induction l with
  | nil => intro _; rfl
  | cons e rest ih =>
    intro hl
    rw [classifyAll]
    obtain ⟨s, hs⟩ := isOk_exists _
      (classifyResource_isOk files imm ids rnodes rMap e.1 e.2
        (hl e (List.mem_cons_self e rest)) hp)
    rw [hs]
    obtain ⟨r, hr⟩ := isOk_exists _
      (ih (fun x hx => hl x (List.mem_cons_of_mem e hx)))
    rw [hr]
    rfl

/-- Every value of `buildResourceMap` carries the type attribute of one of
the declared resources; with all types present, all map values have a
type. -/
theorem buildResourceMap_types (rs : List ResourceEl)
    (hr : ∀ r ∈ rs, r.type.isSome = true) :
    ∀ e ∈ buildResourceMap rs, e.2.type.isSome = true := by
  unfold buildResourceMap
  suffices hgen : ∀ acc : List (String × RMapEntry),
      (∀ e ∈ acc, e.2.type.isSome = true) →
      ∀ e ∈ rs.foldl (fun acc r =>
        match jsTruthy r.identifier with
        | some k =>
          mapSet acc k
            { type := r.type, href := r.href,
              deps := r.deps.map (fun d => d.identifierref) }
        | none => acc) acc, e.2.type.isSome = true by
    exact hgen [] (by intro e he; simp at he)
  induction rs with
  | nil =>
    intro acc hacc e he
    simp at hr ⊢
    exact hacc e he
  | cons r rest ih =>
    intro acc hacc e he
    rw [List.foldl_cons] at he
    refine ih (fun x hx => hr x (List.mem_cons_of_mem r hx)) _ ?_ e he
    cases hj : jsTruthy r.identifier with
    | none => simpa [hj] using hacc
    | some k =>
      simp only [hj]
      exact mapSet_values (fun v => v.type.isSome = true) acc k
        { type := r.type, href := r.href,
          deps := r.deps.map (fun d => d.identifierref) } hacc
        (hr r (List.mem_cons_self r rest))

/-- The items component of the fallback item fold appends one module item
per descendant node. -/
theorem fallback_fold_items (imm : List (String × MetaEntry)) :
    ∀ (ns : List OrgNode)
      (a : List ModuleItem × List String × List (String × OrgNode)),
      (ns.foldl (fallbackItemStep imm) a).1 = a.1 ++ ns.map (fallbackMI imm) := by
  intro ns
  induction ns with
  | nil => intro a; simp
  | cons n rest ih =>
    intro a
    rw [List.foldl_cons, List.map_cons, ih]
    simp [fallbackItemStep]

/-- The map component of the fallback item fold stores only nodes of the
folded list. -/
theorem fallback_fold_rmap (imm : List (String × MetaEntry))
    (P : OrgNode → Prop) :
    ∀ (ns : List OrgNode)
      (a : List ModuleItem × List String × List (String × OrgNode)),
      (∀ n ∈ ns, P n) → (∀ e ∈ a.2.2, P e.2) →
      ∀ e ∈ (ns.foldl (fallbackItemStep imm) a).2.2, P e.2 := by
  intro ns
  induction ns with
  | nil => intro a _ ha e he; exact ha e he
  | cons n rest ih =>
    intro a hns ha e he
    rw [List.foldl_cons] at he
    refine ih _ (fun x hx => hns x (List.mem_cons_of_mem n hx)) ?_ e he
    unfold fallbackItemStep
    dsimp only
    cases hj : jsTruthy n.identifierref with
    | none => exact ha
    | some k =>
      exact mapSet_values P a.2.2 k n ha (hns n (List.mem_cons_self n rest))

/-- The modules component of the fallback module fold appends one module
per child item of the organization root, and the map component stores only
flattened descendant nodes. -/
theorem buildFallback_modules (imm : List (String × MetaEntry)) (org : OrgItem) :
    (buildFallback org imm).modules
      = org.children.map (fun c =>
          { title := jsOr (firstTitleWithin c) "Untitled Module",
            items := (orgNodesList (firstTitleWithin c) c.children).map
              (fallbackMI imm),
            status := match c.identifier.bind (mapGet imm) with
              | some e => e.status
              | none => "unpublished" }) := by
  unfold buildFallback
  suffices hgen : ∀ (cs : List OrgItem) (acc : BuildAcc),
      (cs.foldl (fun acc child0 =>
        let moduleTitle := jsOr (firstTitleWithin child0) "Untitled Module"
        let moduleStatus := match child0.identifier.bind (mapGet imm) with
          | some e => e.status
          | none => "unpublished"
        let descNodes := orgNodesList (firstTitleWithin child0) child0.children
        let r := descNodes.foldl (fallbackItemStep imm) ([], acc.ids, acc.rmap)
        { modules := acc.modules ++
            [{ title := moduleTitle, items := r.1, status := moduleStatus }],
          ids := r.2.1, rmap := r.2.2 }) acc).modules
      = acc.modules ++ cs.map (fun c =>
          { title := jsOr (firstTitleWithin c) "Untitled Module",
            items := (orgNodesList (firstTitleWithin c) c.children).map
              (fallbackMI imm),
            status := match c.identifier.bind (mapGet imm) with
              | some e => e.status
              | none => "unpublished" }) by
    rw [hgen]
    simp
  intro cs
  induction cs with
  | nil => intro acc; simp
  | cons c rest ih =>
    intro acc
    rw [List.foldl_cons, List.map_cons, ih]
    dsimp only
    rw [fallback_fold_items]
    simp

/-- Membership version of `orgAllTitlesList`. -/
theorem orgAllTitlesList_mem (cs : List OrgItem)
    (h : orgAllTitlesList cs = true) : ∀ c ∈ cs, orgAllTitles c = true := by
  induction cs with
  | nil => intro c hc; simp at hc
  | cons c0 rest ih =>
    rw [orgAllTitlesList] at h
    simp only [Bool.and_eq_true] at h
    intro c hc
    rcases List.mem_cons.mp hc with h1 | h1
    · rw [h1]; exact h.1
    · exact ih h.2 c h1

/-- When every organization item carries a title, every stored
manifest-item reference of the fallback pass has a present parent title
query. -/
theorem buildFallback_rmap_parent (imm : List (String × MetaEntry))
    (org : OrgItem) (hT : orgAllTitles org = true) :
    ∀ e ∈ (buildFallback org imm).rmap, e.2.parentTitleQ.isSome = true := by
  unfold buildFallback
  have hch : orgAllTitlesList org.children = true := by
    cases org with
    | node i r t ch =>
      rw [orgAllTitles] at hT
      simp only [Bool.and_eq_true] at hT
      exact hT.2
  suffices hgen : ∀ (cs : List OrgItem), orgAllTitlesList cs = true →
      ∀ (acc : BuildAcc), (∀ e ∈ acc.rmap, e.2.parentTitleQ.isSome = true) →
      ∀ e ∈ (cs.foldl (fun acc child0 =>
        let moduleTitle := jsOr (firstTitleWithin child0) "Untitled Module"
        let moduleStatus := match child0.identifier.bind (mapGet imm) with
          | some e => e.status
          | none => "unpublished"
        let descNodes := orgNodesList (firstTitleWithin child0) child0.children
        let r := descNodes.foldl (fallbackItemStep imm) ([], acc.ids, acc.rmap)
        { modules := acc.modules ++
            [{ title := moduleTitle, items := r.1, status := moduleStatus }],
          ids := r.2.1, rmap := r.2.2 }) acc).rmap,
        e.2.parentTitleQ.isSome = true by
    exact hgen org.children hch { modules := [], ids := [], rmap := [] }
      (by intro e he; simp at he)
  intro cs
  induction cs with
  | nil => intro _ acc hacc e he; exact hacc e he
  | cons c rest ih =>
    intro hcs acc hacc e he
    rw [orgAllTitlesList] at hcs
    simp only [Bool.and_eq_true] at hcs
    rw [List.foldl_cons] at he
    refine ih hcs.2 _ ?_ e he
    dsimp only
    have hcT : orgAllTitles c = true := hcs.1
    have hchT : orgAllTitlesList c.children = true := by
      cases c with
      | node i r t ch =>
        rw [orgAllTitles] at hcT
        simp only [Bool.and_eq_true] at hcT
        exact hcT.2
    refine fallback_fold_rmap imm (fun n => n.parentTitleQ.isSome = true) _ _
      ?_ ?_
    · exact orgNodesList_parent_isSome _ _ (orgAllTitles_firstTitle c hcT) hchT
    · exact hacc

/-- Lookup in the empty map. -/
theorem mapGet_nil {α : Type} (k : String) :
    mapGet ([] : List (String × α)) k = none := rfl

/-- With no metadata map, a fallback module item has the documented
defaults. -/
theorem fallbackMI_nil (node : OrgNode) :
    (fallbackMI [] node).status = "unpublished" ∧
      (fallbackMI [] node).indent = some 0 := by
  unfold fallbackMI
  cases hni : node.identifier <;> simp [hni, mapGet]

/-- C3 (amended): an absent manifest propagates the fatal
"imsmanifest.xml not found in the archive." error; when the manifest is
present but module_meta is absent (and every resource carries a type and
every org item a title, so no other fatal path fires), processing completes
via the organizations fallback: module titles come from each item's first
title (default "Untitled Module"), every module and item has status
"unpublished", and indent defaults to 0. -/
theorem fatal_and_fallback_amended :
    (∀ (st : PState) (a : Archive), a.manifest = none →
       processAndAnalyze st a
         = Except.error "imsmanifest.xml not found in the archive.") ∧
    (∀ (a : Archive) (m : ManifestDoc), a.manifest = some m →
       a.moduleMeta = none →
       (∀ r ∈ m.resources, r.type.isSome = true) →
       (∀ org, m.orgRoot = some org → orgAllTitles org = true) →
       ∃ st items, processAndAnalyze initState a = Except.ok (st, items) ∧
         st.courseStructure.map (fun mod => mod.title)
           = (match m.orgRoot with
              | some org => org.children.map
                  (fun c => jsOr (firstTitleWithin c) "Untitled Module")
              | none => []) ∧
         (∀ mod ∈ st.courseStructure, mod.status = "unpublished" ∧
            ∀ it ∈ mod.items, it.status = "unpublished" ∧ it.indent = some 0)) := by
  constructor
  · intro st a h
    unfold processAndAnalyze
    rw [h]
  · intro a m hm hmm hty hT
    have hp : ∀ e ∈ (buildStructure m a.moduleMeta
        (match a.moduleMeta with
         | some mm => buildItemMetaMap mm
         | none => [])).rmap, e.2.parentTitleQ.isSome = true := by
      rw [hmm]
      unfold buildStructure
      cases ho : m.orgRoot with
      | none => intro e he; simp at he
      | some org => exact buildFallback_rmap_parent [] org (hT org ho)
    have hok := classifyAll_isOk a.files
      (match a.moduleMeta with
       | some mm => buildItemMetaMap mm
       | none => [])
      (buildStructure m a.moduleMeta
        (match a.moduleMeta with
         | some mm => buildItemMetaMap mm
         | none => [])).ids
      (buildStructure m a.moduleMeta
        (match a.moduleMeta with
         | some mm => buildItemMetaMap mm
         | none => [])).rmap
      (buildResourceMap m.resources) hp (buildResourceMap m.resources)
      (buildResourceMap_types m.resources hty)
    obtain ⟨r, hr⟩ := isOk_exists _ hok
    have hok2 : (processAndAnalyze initState a).isOk = true := by
      unfold processAndAnalyze
      rw [hm]
      dsimp only
      rw [hr]
      rfl
    obtain ⟨p, hp2⟩ := isOk_exists _ hok2
    unfold processAndAnalyze at hp2
    rw [hm] at hp2
    dsimp only at hp2
    rw [hr] at hp2
    rw [Except.ok.injEq] at hp2
    refine ⟨p.1, p.2, ?_, ?_, ?_⟩
    · have hpp : processAndAnalyze initState a = Except.ok p := by
        unfold processAndAnalyze
        rw [hm]
        dsimp only
        rw [hr]
        exact congrArg Except.ok hp2
      rw [hpp]
    · rw [← hp2]
      dsimp only [initState]
      rw [List.nil_append, hmm]
      unfold buildStructure
      cases ho : m.orgRoot with
      | none => rfl
      | some org =>
        dsimp only
        rw [buildFallback_modules]
        rw [List.map_map]
        rfl
    · rw [← hp2]
      dsimp only [initState]
      rw [List.nil_append, hmm]
      unfold buildStructure
      intro mod hmod
      cases ho : m.orgRoot with
      | none => rw [ho] at hmod; simp at hmod
      | some org =>
        rw [ho] at hmod
        dsimp only at hmod
        rw [buildFallback_modules] at hmod
        obtain ⟨c, hc, hce⟩ := List.mem_map.mp hmod
        refine ⟨?_, ?_⟩
        · rw [← hce]
          dsimp only
          cases hci : c.identifier with
          | none => rfl
          | some k => simp [hci, mapGet]
        · intro it hit
          rw [← hce] at hit
          dsimp only at hit
          obtain ⟨node, hnode, hne⟩ := List.mem_map.mp hit
          rw [← hne]
          exact fallbackMI_nil node

theorem mainClassifyResource_status (rs : List ResourceEl)
    (files : List (String × Doc)) (r : ResourceEl) (rec : MainRec)
    (h : mainClassifyResource rs files r = Except.ok rec) :
    rec.status = "active" ∨ rec.status = "unpublished" ∨
      rec.status = "unknown" := by
  unfold mainClassifyResource at h
  split at h
  · exact absurd h (by simp)
  · dsimp only at h
    rw [Except.ok.injEq] at h
    subst h
    repeat' split
    all_goals try simp [statusOfWS]
    all_goals tauto

theorem mainClassifyList_status (rs0 : List ResourceEl)
    (files : List (String × Doc)) :
    ∀ (l : List ResourceEl) (recs : List MainRec),
      mainClassifyList rs0 files l = Except.ok recs →
      ∀ rec ∈ recs, rec.status = "active" ∨ rec.status = "unpublished" ∨
        rec.status = "unknown" := by
  intro l
  induction l with
  | nil =>
    intro recs h rec hrec
    simp [mainClassifyList] at h
    subst h
    simp at hrec
  | cons r rest ih =>
    intro recs h rec hrec
    rw [mainClassifyList] at h
    cases hs : mainClassifyResource rs0 files r with
    | error msg => rw [hs] at h; exact absurd h (by simp)
    | ok s =>
      rw [hs] at h
      cases hl : mainClassifyList rs0 files rest with
      | error msg => rw [hl] at h; exact absurd h (by simp)
      | ok ls =>
        rw [hl] at h
        simp at h
        subst h
        rcases List.mem_cons.mp hrec with h1 | h1
        · rw [h1]
          exact mainClassifyResource_status rs0 files r s hs
        · exact ih ls (by rw [hl]) rec h1

theorem merge_no_title_match (mt : String) (it : ModuleItem) :
    ∀ c : List ItemData, (∀ d ∈ c, (d.title == it.title) = false) →
      mergeItemInto c mt it = c := by
  intro c
  induction c with
  | nil => intro _; rfl
  | cons d ds ih =>
    intro hall
    rw [mergeItemInto]
    rw [hall d (List.mem_cons_self d ds)]
    simp only [Bool.false_eq_true, if_false]
    rw [ih (fun x hx => hall x (List.mem_cons_of_mem d hx))]

theorem merge_first_title_match (mt : String) (it : ModuleItem)
    (c2 : List ItemData) (d : ItemData) (hd : d.title = it.title) :
    ∀ c1 : List ItemData, (∀ d' ∈ c1, (d'.title == it.title) = false) →
      mergeItemInto (c1 ++ d :: c2) mt it = c1 ++ mergedItem d mt it :: c2 := by
  intro c1
  induction c1 with
  | nil =>
    intro _
    rw [List.nil_append, mergeItemInto]
    simp [hd]
  | cons x xs ih =>
    intro hall
    rw [List.cons_append, mergeItemInto]
    rw [hall x (List.mem_cons_self x xs)]
    simp only [Bool.false_eq_true, if_false]
    rw [ih (fun y hy => hall y (List.mem_cons_of_mem x hy))]
    rfl

/-- The link-type chain only yields the three documented type tags. -/
theorem linkTypeOf_mem (h : String) :
    linkTypeOf h = "course" ∨ linkTypeOf h = "osu" ∨ linkTypeOf h = "external" := by
  unfold linkTypeOf
  split
  · exact Or.inl rfl
  · split
    · exact Or.inr (Or.inl rfl)
    · exact Or.inr (Or.inr rfl)

/-- Anchors matching one of the skip conditions are not kept. -/
theorem linkKeep_false_of_skip (a : Anchor)
    (h : (jsStartsWith a.href "#" || jsStartsWith a.href "mailto" ||
      a.classes.contains "instructure_file_link" ||
      a.classes.contains "instructure_scribd_file") = true) :
    linkKeep a = false := by
  unfold linkKeep
  simp only [Bool.or_eq_true] at h
  rcases h with ((h1 | h2) | h3) | h4
  · simp [h1]
  · simp [h2]
  · simp [List.mem_of_elem_eq_true h3]
  · simp [List.mem_of_elem_eq_true h4]

theorem findLinks_claim :
    (∀ (doc : Doc) (item : ItemData) (l : LinkRec), l ∈ findLinks doc item →
       l.type = "course" ∨ l.type = "osu" ∨ l.type = "external") ∧
    (∀ (itemTitle : String) (a : Anchor) (as : List Anchor),
       (jsStartsWith a.href "#" || jsStartsWith a.href "mailto" ||
        a.classes.contains "instructure_file_link" ||
        a.classes.contains "instructure_scribd_file") = true →
       findLinksList itemTitle (a :: as) = findLinksList itemTitle as) ∧
    (∀ (itemTitle : String) (a : Anchor) (as : List Anchor), linkKeep a = true →
       findLinksList itemTitle (a :: as)
         = (claimLinkOf itemTitle a).toList ++ findLinksList itemTitle as) := by
  refine ⟨?_, ?_, ?_⟩
  · intro doc item l hl
    unfold findLinks at hl
    revert hl
    generalize doc.anchors = as
    induction as with
    | nil =>
      intro hl
      simp only [findLinksList] at hl
      simp at hl
    | cons a rest ih =>
      intro hl
      simp only [findLinksList] at hl
      rcases List.mem_append.mp hl with h1 | h1
      · by_cases hk : linkKeep a
        · rw [if_pos hk] at h1
          simp at h1
          rw [h1]
          exact linkTypeOf_mem a.href
        · rw [if_neg hk] at h1
          simp at h1
      · exact ih h1
  · intro itemTitle a as h
    simp only [findLinksList]
    rw [linkKeep_false_of_skip a h]
    simp
  · intro itemTitle a as hk
    simp only [findLinksList]
    rw [hk]
    have hks := hk
    unfold linkKeep at hks
    simp only [Bool.and_eq_true, Bool.not_eq_true', bne_iff_ne] at hks
    obtain ⟨⟨⟨⟨hne, h1⟩, h2⟩, h3⟩, h4⟩ := hks
    unfold claimLinkOf
    rw [h1, h2]
    simp only [h3, h4]
    simp [linkTypeOf]

/-- C1 (counterexample): a quiz-marked resource whose first dependency
cannot be resolved is recorded without a throw and with no analysis target,
but its clarified type is the placeholder default `unspecified`, not `quiz`
as the claim states. -/
theorem quiz_unresolved_cx :
    processAndAnalyze initState archC1
      = Except.ok ({ courseStructure := [], allCourseContent := [itemC1] }, []) ∧
    itemC1.clarifiedType = "unspecified" ∧ ¬ itemC1.clarifiedType = "quiz" :=
  ⟨rfl, rfl, by decide⟩

/-- C1 (witness): the amended statement instantiated at the unresolved quiz
scenario. -/
theorem quiz_unresolved_step_witness :
    ∃ s, classifyResource [] [] [] [] [("q1", rmC1)] "q1" rmC1 = Except.ok s ∧
      s.pushed = true ∧ s.item.clarifiedType = "unspecified" ∧
      s.analysis = none :=
  quiz_unresolved_step [] [] [] [] [("q1", rmC1)] "q1" rmC1
    "imsqti_xmlv1p2/imscc_xmlv1p1/assessment" rfl rfl (by decide) (by decide)
    (by decide) rfl

/-- C2: running the pipeline twice on identical input does not reproduce
the first run's output: the global accumulator arrays are never cleared, so
the second run appends a second copy of every item and its content list is
the first list concatenated with itself. -/
theorem second_run_duplicates :
    processAndAnalyze initState archC2 = Except.ok (stC2a, []) ∧
    processAndAnalyze stC2a archC2 = Except.ok (stC2b, []) ∧
    stC2b.allCourseContent = stC2a.allCourseContent ++ stC2a.allCourseContent ∧
    ¬ stC2b.allCourseContent = stC2a.allCourseContent :=
  ⟨rfl, rfl, rfl, by decide⟩

/-- C3 (counterexample): the manifest is present, yet the pipeline still
propagates a fatal error, because the classification loop calls `includes`
on the resource's absent type attribute; so a fatal error is not raised
only when `imsmanifest.xml` is absent. -/
theorem manifest_present_still_fatal :
    archC3cx.manifest.isSome = true ∧
    processAndAnalyze initState archC3cx
      = Except.error "TypeError: cannot read includes of null" :=
  ⟨rfl, rfl⟩

/-- C3 (witness): the amended statement instantiated at a missing-manifest
archive and at the fallback scenario. -/
theorem fatal_and_fallback_witness :
    processAndAnalyze initState archNoManifest
      = Except.error "imsmanifest.xml not found in the archive." ∧
    (∃ st items, processAndAnalyze initState archC3w = Except.ok (st, items) ∧
       st.courseStructure.map (fun mod => mod.title)
         = (match mC3w.orgRoot with
            | some org => org.children.map
                (fun c => jsOr (firstTitleWithin c) "Untitled Module")
            | none => []) ∧
       (∀ mod ∈ st.courseStructure, mod.status = "unpublished" ∧
          ∀ it ∈ mod.items, it.status = "unpublished" ∧ it.indent = some 0)) :=
  ⟨fatal_and_fallback_amended.1 initState archNoManifest rfl,
   fatal_and_fallback_amended.2 archC3w mC3w rfl rfl (by decide)
     (by
       intro org h
       have h2 : some orgC3w = some org := h
       injection h2 with h3
       rw [← h3]
       decide)⟩

/-- C4: a manifest resource matching none of the classification rules gets
`clarifiedType = unspecified` and is not pushed (first conjunct, for a
resource not referenced by any module item), and every member of the final
content list of a successful run satisfies the push condition at its own
type and href, so no unmatched resource can appear in it (second
conjunct). -/
theorem unmatched_resources_excluded :
    (∀ (files : List (String × Doc)) (imm : List (String × MetaEntry))
       (ids : List String) (rnodes : List (String × OrgNode))
       (rMap : List (String × RMapEntry)) (idRef : String) (rm : RMapEntry)
       (t : String),
       rm.type = some t → mapGet rnodes idRef = none →
       isLinkF t = false → isFileF t rm.href = false →
       isPageF t rm.href = false → isAssignF t rm.href = false →
       isQuizF t = false → isDiscF t = false →
       ∃ s, classifyResource files imm ids rnodes rMap idRef rm = Except.ok s ∧
         s.item.clarifiedType = "unspecified" ∧ s.pushed = false ∧
         s.analysis = none) ∧
    (∀ (a : Archive) (st : PState) (items : List ContentItem),
       processAndAnalyze initState a = Except.ok (st, items) →
       ∀ d ∈ st.allCourseContent, ∃ t, d.type = some t ∧
         pushCondT t d.href = true) :=
  ⟨fun files imm ids rnodes rMap idRef rm t ht hctx hL hF hP hA hQ hD =>
     unmatched_step files imm ids rnodes rMap idRef rm t ht hctx hL hF hP hA hQ hD,
   fun a st items h => process_content_pushCond a st items h⟩

/-- C4 (witness): both conjuncts instantiated at concrete inputs. -/
theorem unmatched_resources_excluded_witness :
    (∃ s, classifyResource [] [] [] [] [] "x1" rmC4 = Except.ok s ∧
       s.item.clarifiedType = "unspecified" ∧ s.pushed = false ∧
       s.analysis = none) ∧
    (∃ t, itemC4.type = some t ∧ pushCondT t itemC4.href = true) :=
  ⟨unmatched_resources_excluded.1 [] [] [] [] [] "x1" rmC4 "webcontent" rfl rfl
     (by decide) (by decide) (by decide) (by decide) (by decide) (by decide),
   unmatched_resources_excluded.2 archC4 stC4 [] rfl itemC4 (by decide)⟩

/-- C5 (witness): the discussion-precedence statement instantiated at the
concrete scenario. -/
theorem discussion_announcement_witness :
    ∃ s, classifyResource filesC5 [] [] [] [] "d1" rmC5 = Except.ok s ∧
      s.item.clarifiedType = "announcement" ∧ s.pushed = true ∧
      ∃ c, s.analysis = some c ∧ c.analysisType = "discussion_xml" ∧
        c.item.href = some ("d1" ++ ".xml") ∧
        c.item.clarifiedType = "announcement" :=
  discussion_announcement_step filesC5 [] [] [] [] "d1" rmC5
    "imsdt_xmlv1p1" "dep1" { title := some "Topic" }
    { typeText := some "announcement", workflowState := some "active" }
    rfl rfl (by decide) (by decide) (by decide) (by decide) rfl rfl
    (by decide) rfl rfl

/-- C6 (witness): the page statement instantiated at three bodies: an
active workflow-state meta tag with a non-empty title, a meta tag with the
other value "published" (status falls to "unpublished", the empty title
text falls back to the identifier), and a body with no meta tag and no
title at all (status again "unpublished"). -/
theorem page_step_witness :
    (∃ s, classifyResource filesC6 [] [] [] [] "p1" rmC6 = Except.ok s ∧
       s.item.clarifiedType = "page" ∧ s.item.status = "active" ∧
       s.item.title = "Page T" ∧ s.pushed = true) ∧
    (∃ s, classifyResource filesC6b [] [] [] [] "p2" rmC6b = Except.ok s ∧
       s.item.clarifiedType = "page" ∧ s.item.status = "unpublished" ∧
       s.item.title = "p2") ∧
    (∃ s, classifyResource filesC6c [] [] [] [] "p3" rmC6c = Except.ok s ∧
       s.item.clarifiedType = "page" ∧ s.item.status = "unpublished") := by
  refine ⟨?_, ?_, ?_⟩
  · obtain ⟨s, h1, h2, h3, h4, h5⟩ :=
      page_step filesC6 [] [] [] [] "p1" "wiki_content/p.html" docC6 rmC6
        rfl rfl (by decide) rfl rfl
    exact ⟨s, h1, h2, h3.trans (by decide), h4.trans (by decide), h5⟩
  · obtain ⟨s, h1, h2, h3, h4, _⟩ :=
      page_step filesC6b [] [] [] [] "p2" "wiki_content/q.html" docC6b rmC6b
        rfl rfl (by decide) rfl rfl
    exact ⟨s, h1, h2, h3.trans (by decide), h4.trans (by decide)⟩
  · obtain ⟨s, h1, h2, h3, _, _⟩ :=
      page_step filesC6c [] [] [] [] "p3" "wiki_content/r.html" docC6c rmC6c
        rfl rfl (by decide) rfl rfl
    exact ⟨s, h1, h2, h3.trans (by decide)⟩

/-- C7: the end-to-end assignment scenario resolves to title HW1, clarified
type assignment, publish status active and analysis target
(r1/foo.html, html); dropping the settings file keeps the analysis target
but loses title and status, and dropping the HTML body keeps title and
status but loses the analysis target, so the two lookups are
independent. -/
theorem assignment_end_to_end :
    processAndAnalyze initState archC7
      = Except.ok ({ courseStructure := [], allCourseContent := [itemC7] },
          [{ item := itemC7, analysisType := "html" }]) ∧
    itemC7.title = "HW1" ∧ itemC7.clarifiedType = "assignment" ∧
    itemC7.status = "active" ∧
    processAndAnalyze initState archC7b
      = Except.ok ({ courseStructure := [], allCourseContent := [itemC7b] },
          [{ item := itemC7b, analysisType := "html" }]) ∧
    itemC7b.title = "r1" ∧ itemC7b.status = "unpublished" ∧
    processAndAnalyze initState archC7c
      = Except.ok ({ courseStructure := [], allCourseContent := [itemC7c] },
          []) ∧
    itemC7c.title = "HW1" ∧ itemC7c.status = "active" :=
  ⟨rfl, rfl, rfl, rfl, rfl, rfl, rfl, rfl, rfl, rfl⟩

/-- C8 (counterexample): the single module item references resource r1 by
identifier-reference, so under the claim the r1 item (title DiscA) should
be the one marked in-module with module title Mod, and the r2 item should
stay unmatched; instead the merge matches by exact title equality only:
the r2 item (whose title equals the module item's computed title) receives
`inModule = true` and `moduleTitle = Mod`, while the identifier-referenced
r1 item keeps the module title Org computed outside the merge. -/
theorem merge_identifier_first_cx :
    processAndAnalyze initState archC8 = Except.ok (stC8, [ciC8]) ∧
    stC8.courseStructure.map
        (fun mod => mod.items.map (fun it => it.identifierref))
      = [[some "r1"]] ∧
    stC8.allCourseContent = [itemC8r1, itemC8r2] ∧
    itemC8r1.title = "DiscA" ∧
    itemC8r2.moduleTitle = some "Mod" ∧ itemC8r2.inModule = true ∧
    ¬ itemC8r1.moduleTitle = some "Mod" :=
  ⟨rfl, rfl, rfl, rfl, rfl, rfl, by decide⟩

/-- C8: amended — the merge matches each module item to the first resolved
item with exactly equal title (no identifier-based matching exists): when
no title matches the list is unchanged, and on the first title match the
item is updated in place with `inModule = true`, the enclosing module's
title, and the module item's indent. -/
theorem merge_by_title_only :
    (∀ (c : List ItemData) (mt : String) (it : ModuleItem),
       (∀ d ∈ c, (d.title == it.title) = false) → mergeItemInto c mt it = c) ∧
    (∀ (c1 c2 : List ItemData) (d : ItemData) (mt : String) (it : ModuleItem),
       (∀ d' ∈ c1, (d'.title == it.title) = false) → d.title = it.title →
       mergeItemInto (c1 ++ d :: c2) mt it
           = c1 ++ mergedItem d mt it :: c2 ∧
         (mergedItem d mt it).inModule = true ∧
         (mergedItem d mt it).moduleTitle = some mt ∧
         (mergedItem d mt it).indent = it.indent) :=
  ⟨fun c mt it h => merge_no_title_match mt it c h,
   fun c1 c2 d mt it h1 h2 =>
     ⟨merge_first_title_match mt it c2 d h2 c1 h1, rfl, rfl, rfl⟩⟩

/-- C8 (witness): the amended merge statement instantiated at concrete
lists. -/
theorem merge_by_title_only_witness :
    mergeItemInto [dW] "M" itX = [dW] ∧
    (mergeItemInto ([dW] ++ dX :: []) "M" itX
         = [dW] ++ mergedItem dX "M" itX :: [] ∧
       (mergedItem dX "M" itX).inModule = true ∧
       (mergedItem dX "M" itX).moduleTitle = some "M" ∧
       (mergedItem dX "M" itX).indent = itX.indent) :=
  ⟨merge_by_title_only.1 [dW] "M" itX (by decide),
   merge_by_title_only.2 [dW] [] dX "M" itX (by decide) rfl⟩

/-- C9 (counterexample): the `main.js` classifier records a link resource
with `status = "unknown"`, a value outside the claimed closed set of
active and unpublished, because the loop's initial default is `'unknown'`
and the link branch never assigns a status. -/
theorem main_link_status_unknown :
    mainClassifyAll [resC9] [] = Except.ok [recC9] ∧
    ¬ recC9.status = "active" ∧ ¬ recC9.status = "unpublished" :=
  ⟨rfl, by decide, by decide⟩

/-- C9: amended — every record the `main.js` resource loop produces has a
status in the closed set of active, unpublished and unknown; a missing or
malformed status source leaves the initial default `'unknown'`, while a
present source that is not active yields `'unpublished'`. -/
theorem main_status_closed_set (rs0 : List ResourceEl)
    (files : List (String × Doc)) (l : List ResourceEl) (recs : List MainRec)
    (h : mainClassifyList rs0 files l = Except.ok recs) :
    ∀ rec ∈ recs, rec.status = "active" ∨ rec.status = "unpublished" ∨
      rec.status = "unknown" :=
  mainClassifyList_status rs0 files l recs h

/-- C9 (witness): the amended statement instantiated at the link
resource. -/
theorem main_status_closed_set_witness :
    recC9.status = "active" ∨ recC9.status = "unpublished" ∨
      recC9.status = "unknown" :=
  main_status_closed_set [resC9] [] [resC9] [recC9] rfl recC9 (by decide)

/-- C10 (witness): the link-extractor statement instantiated at a course
anchor and a skipped mailto anchor. -/
theorem findLinks_claim_witness :
    (recC10.type = "course" ∨ recC10.type = "osu" ∨
      recC10.type = "external") ∧
    findLinksList "It" [aMailto, aCourse] = findLinksList "It" [aCourse] ∧
    findLinksList "It" [aCourse]
      = (claimLinkOf "It" aCourse).toList ++ findLinksList "It" [] :=
  ⟨findLinks_claim.1 docC10 itemC10 recC10 (by decide),
   findLinks_claim.2.1 "It" aMailto [aCourse] (by decide),
   findLinks_claim.2.2 "It" aCourse [] (by decide)⟩

end CourseQC
